import Mathlib

/-!
Verification of the CME L2 market-data feed handler core.

Shallow embedding of the C++ sources under `src/cme/`:
`cme_protocol.h`, `cme_order_book.{h,cpp}`, `recovery_state.{h,cpp}`,
`cme_feedhandler.cpp` and `l2_sbe_messages.h`.

Machine integers are modelled as `Nat` (unsigned) or `Int` (signed); the
explicit `% 2^w` wraps appear exactly where the C++ performs a narrowing
or sign-changing cast.  Buffers are modelled as `List Nat` of byte values.
-/

namespace MarketData

/-! ### Byte-level utilities (little-endian wire encoding) -/

/-- Byte at index `i` of a buffer (0 when out of range; the parsers below
are responsible for never relying on the default on a checked path). -/
def byteAt (l : List Nat) (i : Nat) : Nat := l.getD i 0

/-- Read `k` bytes little-endian starting at `off`. -/
def readLE (l : List Nat) (off : Nat) : Nat → Nat
  | 0 => 0
  | k + 1 => byteAt l off + 256 * readLE l (off + 1) k

/-- Emit `k` bytes little-endian for the value `n % 256^k`. -/
def bytesLE : Nat → Nat → List Nat
  | 0, _ => []
  | k + 1, n => n % 256 :: bytesLE k (n / 256)

theorem length_bytesLE (k n : Nat) : (bytesLE k n).length = k := by
  induction k generalizing n with
  | zero => rfl
  | succ k ih => simp [bytesLE, ih]

theorem byteAt_append_left {xs ys : List Nat} {i : Nat} (h : i < xs.length) :
    byteAt (xs ++ ys) i = byteAt xs i := by
  simp [byteAt, List.getD, List.getElem?_append_left h]

theorem byteAt_append_right (xs ys : List Nat) (i : Nat) :
    byteAt (xs ++ ys) (xs.length + i) = byteAt ys i := by
  simp [byteAt, List.getD]
  rw [List.getElem?_append_right (by omega), Nat.add_sub_cancel_left]

theorem readLE_append_right (xs ys : List Nat) (i k : Nat) :
    readLE (xs ++ ys) (xs.length + i) k = readLE ys i k := by
  induction k generalizing i with
  | zero => rfl
  | succ k ih =>
    simp only [readLE, byteAt_append_right]
    rw [show xs.length + i + 1 = xs.length + (i + 1) by omega, ih]

theorem readLE_append_left {xs ys : List Nat} {off k : Nat}
    (h : off + k ≤ xs.length) : readLE (xs ++ ys) off k = readLE xs off k := by
  induction k generalizing off with
  | zero => rfl
  | succ k ih =>
    simp only [readLE]
    rw [byteAt_append_left (by omega), ih (by omega)]

theorem readLE_cons_succ (b : Nat) (l : List Nat) (i k : Nat) :
    readLE (b :: l) (i + 1) k = readLE l i k := by
  induction k generalizing i with
  | zero => rfl
  | succ k ih =>
    simp only [readLE]
    have hb : byteAt (b :: l) (i + 1) = byteAt l i := by
      simp [byteAt, List.getD]
    rw [hb, ih]

theorem readLE_bytesLE {k n : Nat} (h : n < 256 ^ k) (post : List Nat) :
    readLE (bytesLE k n ++ post) 0 k = n := by
  induction k generalizing n post with
  | zero => simpa [readLE] using (Nat.lt_one_iff.mp (by simpa [Nat.pow_zero] using h)).symm
  | succ k ih =>
    simp only [bytesLE, readLE, List.cons_append]
    have h0 : byteAt (n % 256 :: (bytesLE k (n / 256) ++ post)) 0 = n % 256 := by
      simp [byteAt, List.getD]
    have h1 : readLE (n % 256 :: (bytesLE k (n / 256) ++ post)) 1 k
        = readLE (bytesLE k (n / 256) ++ post) 0 k := by
      simpa using readLE_cons_succ (n % 256) (bytesLE k (n / 256) ++ post) 0 k
    have hd : n / 256 < 256 ^ k := by
      have : n < 256 ^ k * 256 := by
        calc n < 256 ^ (k + 1) := h
        _ = 256 ^ k * 256 := by ring
      exact Nat.div_lt_of_lt_mul (by omega)
    rw [h0, h1, ih hd]
    omega

/-! Signed 64-bit values: stored two's-complement, read back as `Int`. -/

/-- Two's-complement 64-bit image of an `Int` (the C++ bit pattern of an
`int64_t`), as a natural number below `2^64`. -/
def toU64 (p : Int) : Nat := (p % (2 ^ 64 : Int)).toNat

/-- Little-endian bytes of an `int64_t`. -/
def bytesI64 (p : Int) : List Nat := bytesLE 8 (toU64 p)

/-- Read an `int64_t` (little-endian two's complement) at `off`. -/
def readI64 (l : List Nat) (off : Nat) : Int :=
  let n := readLE l off 8
  if n < 2 ^ 63 then (n : Int) else (n : Int) - 2 ^ 64

theorem toU64_lt (p : Int) : toU64 p < 2 ^ 64 := by
  have h := Int.emod_lt_of_pos p (show (0 : Int) < 2 ^ 64 by norm_num)
  have h2 := Int.emod_nonneg p (show (2 ^ 64 : Int) ≠ 0 by norm_num)
  unfold toU64
  omega

theorem readI64_bytesI64 {p : Int} (hlo : -(2 ^ 63) ≤ p) (hhi : p < 2 ^ 63)
    (post : List Nat) : readI64 (bytesI64 p ++ post) 0 = p := by
  have hmod : toU64 p < 256 ^ 8 := by
    have := toU64_lt p
    norm_num at this ⊢
    exact this
  unfold readI64 bytesI64
  rw [readLE_bytesLE hmod post]
  have he := Int.emod_nonneg p (show (2 ^ 64 : Int) ≠ 0 by norm_num)
  have hl := Int.emod_lt_of_pos p (show (0 : Int) < 2 ^ 64 by norm_num)
  rcases le_or_lt 0 p with hp | hp
  · have hmodeq : p % (2 ^ 64 : Int) = p := Int.emod_eq_of_lt hp (by nlinarith)
    have : toU64 p = p.toNat := by unfold toU64; rw [hmodeq]
    rw [this]
    have hlt : p.toNat < 2 ^ 63 := by omega
    simp only [hlt, if_true]
    omega
  · have hmodeq : p % (2 ^ 64 : Int) = p + 2 ^ 64 := by omega
    have : (toU64 p : Int) = p + 2 ^ 64 := by
      unfold toU64; rw [hmodeq]; omega
    have hge : ¬ (toU64 p < 2 ^ 63) := by omega
    simp only [hge, if_false]
    omega

/-! ### `cme_protocol.h`: entry structures and helpers -/

/-- Entry-type codes (`enum class MDEntryType : uint8_t`), kept as raw
byte values since the wire field is an arbitrary `uint8_t`. -/
def MDEntryType.Bid : Nat := 0
def MDEntryType.Offer : Nat := 1
def MDEntryType.Trade : Nat := 2
def MDEntryType.ImpliedBid : Nat := 69
def MDEntryType.ImpliedOffer : Nat := 70

/-- Update-action codes (`enum class MDUpdateAction : uint8_t`). -/
def MDUpdateAction.New : Nat := 0
def MDUpdateAction.Change : Nat := 1
def MDUpdateAction.Delete : Nat := 2
def MDUpdateAction.DeleteThru : Nat := 3
def MDUpdateAction.DeleteFrom : Nat := 4
def MDUpdateAction.Overlay : Nat := 5

/-- `MDIncrementalRefreshEntry` (24 bytes on the wire). -/
structure MDIncrementalRefreshEntry where
  md_entry_px : Int        -- int64_t
  md_entry_size : Int      -- int32_t
  security_id : Nat        -- uint32_t
  rpt_seq : Nat            -- uint32_t
  md_entry_type : Nat      -- uint8_t
  md_update_action : Nat   -- uint8_t
  md_price_level : Nat     -- uint8_t
  number_of_orders : Nat   -- uint8_t
  deriving Repr, DecidableEq

/-- `MDSnapshotEntry` (16 bytes on the wire). -/
structure MDSnapshotEntry where
  md_entry_px : Int        -- int64_t
  md_entry_size : Int      -- int32_t
  md_entry_type : Nat      -- uint8_t
  md_price_level : Nat     -- uint8_t
  number_of_orders : Nat   -- uint8_t
  deriving Repr, DecidableEq

/-- `cmeToFixedPrice`: `static_cast<uint32_t>(cme_price / 1000)`.
C++ `int64_t` division truncates toward zero (`Int.tdiv`); the cast to
`uint32_t` wraps modulo `2^32`. -/
def cmeToFixedPrice (cme_price : Int) : Nat :=
  ((cme_price.tdiv 1000) % (2 ^ 32 : Int)).toNat

/-- `calcIncrementalSize`: `sizeof(MDIncrementalRefreshBook) = 19` packed
bytes plus 24 bytes per entry. -/
def calcIncrementalSize (num_entries : Nat) : Nat := 19 + num_entries * 24

/-- `calcSnapshotSize`: `sizeof(MDSnapshotFullRefresh) = 31` packed bytes
plus 16 bytes per entry. -/
def calcSnapshotSize (num_entries : Nat) : Nat := 31 + num_entries * 16

/-! ### `cme_order_book.{h,cpp}`: the per-instrument L2 book -/

/-- `CmePriceLevel`: price `int64_t`, quantity `int32_t`,
order count `uint8_t`. Default-constructed as all zero. -/
structure CmePriceLevel where
  price : Int
  quantity : Int
  order_count : Nat
  deriving Repr, DecidableEq

def CmePriceLevel.zero : CmePriceLevel := ⟨0, 0, 0⟩

def CME_MAX_DEPTH : Nat := 10

/-- `CmeOrderBook` fields. The two `std::array<CmePriceLevel, 10>` ladders
are lists of length 10 (every operation below preserves that length). -/
structure CmeOrderBook where
  security_id : Nat
  last_rpt_seq : Nat                -- uint32_t
  bids : List CmePriceLevel
  asks : List CmePriceLevel
  bid_count : Nat                   -- uint8_t
  ask_count : Nat                   -- uint8_t
  last_trade_price : Int            -- int64_t
  last_trade_qty : Int              -- int32_t
  total_volume : Nat                -- uint64_t
  deriving Repr, DecidableEq

/-- A fresh ladder: ten zero levels. -/
def emptyLadder : List CmePriceLevel := List.replicate CME_MAX_DEPTH .zero

/-- `CmeOrderBook::CmeOrderBook(security_id)` (constructor calls `clear`). -/
def CmeOrderBook.mkEmpty (security_id : Nat) : CmeOrderBook :=
  { security_id := security_id, last_rpt_seq := 0
    bids := emptyLadder, asks := emptyLadder
    bid_count := 0, ask_count := 0
    last_trade_price := 0, last_trade_qty := 0, total_volume := 0 }

/-- `CmeOrderBook::clear()`: zeroes both ladders and both counts (the
trade tape and `last_rpt_seq_` are untouched). -/
def CmeOrderBook.clear (b : CmeOrderBook) : CmeOrderBook :=
  { b with bids := emptyLadder, asks := emptyLadder, bid_count := 0, ask_count := 0 }

/-- Shared body of `CmeOrderBook::applyBid` / `applyAsk` (the two C++
functions are textually identical modulo which ladder they touch).
Takes and returns the `(ladder, count)` pair of one side.
Out-of-range levels (`level == 0 || level > CME_MAX_DEPTH`) are ignored,
as is an action byte outside the `switch` cases. -/
def applyLadder (level : Nat) (action : Nat) (price : Int) (qty : Int)
    (orders : Nat) : List CmePriceLevel × Nat → List CmePriceLevel × Nat :=
  fun (ls, count) =>
    if level = 0 ∨ level > CME_MAX_DEPTH then (ls, count)
    else
      let idx := level - 1
      if action = MDUpdateAction.New then
        -- shift levels idx..8 one position deeper, discarding slot 9
        (ls.take idx ++ [⟨price, qty, orders⟩] ++ (ls.drop idx).take (CME_MAX_DEPTH - 1 - idx),
         if count < CME_MAX_DEPTH then count + 1 else count)
      else if action = MDUpdateAction.Change then
        (ls.set idx ⟨price, qty, orders⟩, count)
      else if action = MDUpdateAction.Delete then
        -- shift levels idx+1..9 one position shallower, zeroing slot 9
        (ls.take idx ++ ls.drop (idx + 1) ++ [.zero],
         if count > 0 then count - 1 else count)
      else if action = MDUpdateAction.DeleteThru then
        -- zero slots 0..idx
        (List.replicate (idx + 1) .zero ++ ls.drop (idx + 1), 0)
      else if action = MDUpdateAction.DeleteFrom then
        -- zero slots idx..9
        (ls.take idx ++ List.replicate (CME_MAX_DEPTH - idx) .zero, idx)
      else if action = MDUpdateAction.Overlay then
        (ls.set idx ⟨price, qty, orders⟩,
         if idx + 1 > count then idx + 1 else count)
      else (ls, count)

/-- `CmeOrderBook::applyBid`. -/
def CmeOrderBook.applyBid (b : CmeOrderBook) (level action : Nat)
    (price qty : Int) (orders : Nat) : CmeOrderBook :=
  let r := applyLadder level action price qty orders (b.bids, b.bid_count)
  { b with bids := r.1, bid_count := r.2 }

/-- `CmeOrderBook::applyAsk`. -/
def CmeOrderBook.applyAsk (b : CmeOrderBook) (level action : Nat)
    (price qty : Int) (orders : Nat) : CmeOrderBook :=
  let r := applyLadder level action price qty orders (b.asks, b.ask_count)
  { b with asks := r.1, ask_count := r.2 }

/-- `CmeOrderBook::recordTrade`: `total_volume_ += uint64_t(quantity)`
(the `int32_t → uint64_t` cast wraps modulo `2^64`, as does the sum). -/
def CmeOrderBook.recordTrade (b : CmeOrderBook) (price qty : Int) : CmeOrderBook :=
  { b with last_trade_price := price, last_trade_qty := qty
           total_volume := (b.total_volume + (qty % (2 ^ 64 : Int)).toNat) % 2 ^ 64 }

/-- `CmeOrderBook::applyUpdate`. -/
def CmeOrderBook.applyUpdate (b : CmeOrderBook)
    (e : MDIncrementalRefreshEntry) : CmeOrderBook :=
  let b1 :=
    if e.md_entry_type = MDEntryType.Bid ∨ e.md_entry_type = MDEntryType.ImpliedBid then
      b.applyBid e.md_price_level e.md_update_action e.md_entry_px
        e.md_entry_size e.number_of_orders
    else if e.md_entry_type = MDEntryType.Offer ∨ e.md_entry_type = MDEntryType.ImpliedOffer then
      b.applyAsk e.md_price_level e.md_update_action e.md_entry_px
        e.md_entry_size e.number_of_orders
    else if e.md_entry_type = MDEntryType.Trade then
      b.recordTrade e.md_entry_px e.md_entry_size
    else b
  if e.rpt_seq > b1.last_rpt_seq then { b1 with last_rpt_seq := e.rpt_seq }
  else b1

/-- One step of the loop body of `CmeOrderBook::applySnapshot`. -/
def applySnapshotEntry (b : CmeOrderBook) (e : MDSnapshotEntry) : CmeOrderBook :=
  if e.md_price_level = 0 ∨ e.md_price_level > CME_MAX_DEPTH then b
  else
    let idx := e.md_price_level - 1
    if e.md_entry_type = MDEntryType.Bid then
      { b with bids := b.bids.set idx ⟨e.md_entry_px, e.md_entry_size, e.number_of_orders⟩
               bid_count := if idx + 1 > b.bid_count then idx + 1 else b.bid_count }
    else if e.md_entry_type = MDEntryType.Offer then
      { b with asks := b.asks.set idx ⟨e.md_entry_px, e.md_entry_size, e.number_of_orders⟩
               ask_count := if idx + 1 > b.ask_count then idx + 1 else b.ask_count }
    else b

/-- `CmeOrderBook::applySnapshot`: clear, then apply the entries in order. -/
def CmeOrderBook.applySnapshot (b : CmeOrderBook)
    (entries : List MDSnapshotEntry) : CmeOrderBook :=
  entries.foldl applySnapshotEntry b.clear

/-- `CmeOrderBook::setLastRptSeq`. -/
def CmeOrderBook.setLastRptSeq (b : CmeOrderBook) (seq : Nat) : CmeOrderBook :=
  { b with last_rpt_seq := seq }

/-! ### `feedhandler::OrderBookSnapshot` and `CmeOrderBook::getSnapshot` -/

/-- `feedhandler::PriceLevel`: all three fields `uint32_t`. -/
structure FHPriceLevel where
  price : Nat
  quantity : Nat
  order_count : Nat
  deriving Repr, DecidableEq

def FHPriceLevel.zero : FHPriceLevel := ⟨0, 0, 0⟩

/-- `feedhandler::BookSide` (array of `MAX_DEPTH = 10` levels + count). -/
structure BookSide where
  levels : List FHPriceLevel
  count : Nat
  deriving Repr, DecidableEq

/-- `feedhandler::OrderBookSnapshot`.  The `symbol` char array (copied
from the static `getSymbolName` table) and the `timestamp` (written by the
caller from the clock) carry no book state and are elided here. -/
structure OrderBookSnapshot where
  sequence : Nat
  bids : BookSide
  asks : BookSide
  last_price : Nat
  last_quantity : Nat
  total_volume : Nat
  deriving Repr, DecidableEq

/-- Per-level conversion done by `getSnapshot`: price through
`cmeToFixedPrice`, quantity through the `int32_t → uint32_t` cast. -/
def toFHLevel (l : CmePriceLevel) : FHPriceLevel :=
  { price := cmeToFixedPrice l.price
    quantity := (l.quantity % (2 ^ 32 : Int)).toNat
    order_count := l.order_count }

/-- `CmeOrderBook::getSnapshot`: `snap = {}` zero-initializes, then the
first `min(count, MAX_DEPTH)` levels of each side are converted. -/
def CmeOrderBook.getSnapshot (b : CmeOrderBook) : OrderBookSnapshot :=
  let bcnt := min b.bid_count CME_MAX_DEPTH
  let acnt := min b.ask_count CME_MAX_DEPTH
  { sequence := b.last_rpt_seq
    bids := { levels := (List.range CME_MAX_DEPTH).map
                (fun i => if i < bcnt then toFHLevel (b.bids.getD i .zero) else .zero)
              count := bcnt }
    asks := { levels := (List.range CME_MAX_DEPTH).map
                (fun i => if i < acnt then toFHLevel (b.asks.getD i .zero) else .zero)
              count := acnt }
    last_price := cmeToFixedPrice b.last_trade_price
    last_quantity := (b.last_trade_qty % (2 ^ 32 : Int)).toNat
    total_volume := b.total_volume }

/-! ### Association lists (model of the `std::unordered_map`s) -/

/-- Lookup by key. -/
def alGet {α : Type _} : List (Nat × α) → Nat → Option α
  | [], _ => none
  | (k', v) :: t, k => if k' = k then some v else alGet t k

/-- Insert-or-replace by key (`map[k] = v`). -/
def alSet {α : Type _} : List (Nat × α) → Nat → α → List (Nat × α)
  | [], k, v => [(k, v)]
  | (k', v') :: t, k, v =>
      if k' = k then (k, v) :: t else (k', v') :: alSet t k v

/-! ### `recovery_state.{h,cpp}`: the per-instrument recovery FSM -/

inductive RecoveryState where
  | Normal
  | GapDetected
  | Recovering
  deriving Repr, DecidableEq

/-- `SecurityRecoveryState` with its in-class initializers.  The
`buffered_updates` payloads are opaque here (never filled by the code). -/
structure SecurityRecoveryState where
  state : RecoveryState := .Normal
  expected_rpt_seq : Nat := 1
  last_good_rpt_seq : Nat := 0
  snapshot_rpt_seq : Nat := 0
  gap_detected_time : Nat := 0
  recovery_attempts : Nat := 0
  buffered_updates : List Nat := []
  deriving Repr, DecidableEq

/-- `RecoveryManager::Stats`. -/
structure RecoveryStats where
  gaps_detected : Nat := 0
  recoveries_completed : Nat := 0
  messages_dropped : Nat := 0
  messages_buffered : Nat := 0
  deriving Repr, DecidableEq

structure RecoveryManager where
  states : List (Nat × SecurityRecoveryState) := []
  stats : RecoveryStats := {}
  deriving Repr, DecidableEq

/-- `RecoveryManager::initSecurity` (`states_[id]` default-creates the
record when absent, then three fields are assigned). -/
def RecoveryManager.initSecurity (m : RecoveryManager) (sid initial_seq : Nat) :
    RecoveryManager :=
  let st := (alGet m.states sid).getD {}
  { m with states := (alSet m.states sid
      { st with expected_rpt_seq := initial_seq
                last_good_rpt_seq := if initial_seq > 0 then initial_seq - 1 else 0
                state := .Normal }) }

/-- `RecoveryManager::onIncrementalMessage`.  Returns the updated manager
and whether the entry should be applied to the book. -/
def RecoveryManager.onIncrementalMessage (m : RecoveryManager)
    (sid rpt_seq : Nat) : RecoveryManager × Bool :=
  match alGet m.states sid with
  | none => (m.initSecurity sid (rpt_seq + 1), true)
  | some st =>
    match st.state with
    | .Normal =>
      if rpt_seq ≥ st.last_good_rpt_seq ∧ rpt_seq ≤ st.expected_rpt_seq then
        if rpt_seq > st.last_good_rpt_seq then
          ({ m with states := (alSet m.states sid
               { st with expected_rpt_seq := rpt_seq + 1
                         last_good_rpt_seq := rpt_seq }) }, true)
        else (m, true)
      else if rpt_seq < st.last_good_rpt_seq then
        ({ m with stats := { m.stats with
             messages_dropped := m.stats.messages_dropped + 1 } }, false)
      else
        ({ m with
           states := (alSet m.states sid
             { st with state := .GapDetected
                       gap_detected_time := 0
                       recovery_attempts := st.recovery_attempts + 1 })
           stats := { m.stats with
             gaps_detected := m.stats.gaps_detected + 1 } }, false)
    | .GapDetected | .Recovering =>
      ({ m with stats := { m.stats with
           messages_dropped := m.stats.messages_dropped + 1 } }, false)

/-- `RecoveryManager::onSnapshotMessage`. -/
def RecoveryManager.onSnapshotMessage (m : RecoveryManager)
    (sid snapshot_rpt_seq _last_incr_seq : Nat) : RecoveryManager × Bool :=
  match alGet m.states sid with
  | none => (m.initSecurity sid (snapshot_rpt_seq + 1), true)
  | some st =>
    match st.state with
    | .Normal => (m, false)
    | .GapDetected =>
      ({ m with states := (alSet m.states sid
          { st with state := .Recovering, snapshot_rpt_seq := snapshot_rpt_seq }) }, true)
    | .Recovering =>
      if snapshot_rpt_seq > st.snapshot_rpt_seq then
        ({ m with states := (alSet m.states sid
            { st with snapshot_rpt_seq := snapshot_rpt_seq }) }, true)
      else (m, false)

/-- `RecoveryManager::completeRecovery`. -/
def RecoveryManager.completeRecovery (m : RecoveryManager) (sid rpt_seq : Nat) :
    RecoveryManager :=
  match alGet m.states sid with
  | none => m
  | some st =>
    { m with
      states := (alSet m.states sid
        { st with state := .Normal
                  expected_rpt_seq := rpt_seq + 1
                  last_good_rpt_seq := rpt_seq
                  buffered_updates := [] })
      stats := { m.stats with
        recoveries_completed := m.stats.recoveries_completed + 1 } }

/-- `RecoveryManager::resetExpectedSeq`. -/
def RecoveryManager.resetExpectedSeq (m : RecoveryManager) (sid seq : Nat) :
    RecoveryManager :=
  let st := (alGet m.states sid).getD {}
  { m with states := (alSet m.states sid
      { st with expected_rpt_seq := seq
                last_good_rpt_seq := if seq > 0 then seq - 1 else 0
                state := .Normal
                buffered_updates := [] }) }

/-- `RecoveryManager::needsRecovery`. -/
def RecoveryManager.needsRecovery (m : RecoveryManager) : Bool :=
  m.states.any (fun p => p.2.state ≠ RecoveryState.Normal)

/-- `RecoveryManager::getState` (Normal for unknown instruments). -/
def RecoveryManager.getState (m : RecoveryManager) (sid : Nat) : RecoveryState :=
  match alGet m.states sid with
  | none => .Normal
  | some st => st.state

/-! ### `CmeOrderBookManager` -/

structure CmeOrderBookManager where
  books : List (Nat × CmeOrderBook) := []
  dirty : List Nat := []       -- `std::unordered_set` of dirty ids
  deriving Repr, DecidableEq

/-- `CmeOrderBookManager::getBook`: get-or-create.  Returns the book and
the (possibly extended) manager. -/
def CmeOrderBookManager.getBook (bm : CmeOrderBookManager) (sid : Nat) :
    CmeOrderBook × CmeOrderBookManager :=
  match alGet bm.books sid with
  | some b => (b, bm)
  | none =>
    let b := CmeOrderBook.mkEmpty sid
    (b, { bm with books := alSet bm.books sid b })

/-- `CmeOrderBookManager::markDirty` (set insertion). -/
def CmeOrderBookManager.markDirty (bm : CmeOrderBookManager) (sid : Nat) :
    CmeOrderBookManager :=
  if sid ∈ bm.dirty then bm else { bm with dirty := bm.dirty ++ [sid] }

/-- `CmeOrderBookManager::applyIncremental`. -/
def CmeOrderBookManager.applyIncremental (bm : CmeOrderBookManager)
    (e : MDIncrementalRefreshEntry) : CmeOrderBookManager :=
  let r := bm.getBook e.security_id
  let bm2 := { r.2 with books := alSet r.2.books e.security_id (r.1.applyUpdate e) }
  bm2.markDirty e.security_id

/-- `CmeOrderBookManager::applySnapshot`. -/
def CmeOrderBookManager.applySnapshot (bm : CmeOrderBookManager) (sid : Nat)
    (entries : List MDSnapshotEntry) (rpt_seq : Nat) : CmeOrderBookManager :=
  let r := bm.getBook sid
  let b' := (r.1.applySnapshot entries).setLastRptSeq rpt_seq
  let bm2 := { r.2 with books := alSet r.2.books sid b' }
  bm2.markDirty sid

/-- `CmeOrderBookManager::getDirtySecurities`: returns the dirty ids and
atomically empties the set. -/
def CmeOrderBookManager.getDirtySecurities (bm : CmeOrderBookManager) :
    List Nat × CmeOrderBookManager :=
  (bm.dirty, { bm with dirty := [] })

/-- `CmeOrderBookManager::clear`: destroys all books and the dirty set. -/
def CmeOrderBookManager.clear (_bm : CmeOrderBookManager) : CmeOrderBookManager :=
  { books := [], dirty := [] }

/-- `CmeOrderBookManager::getAllSecurityIds`. -/
def CmeOrderBookManager.getAllSecurityIds (bm : CmeOrderBookManager) : List Nat :=
  bm.books.map Prod.fst

/-! ### `CmeFeedHandler`: message handlers and the conflation tick -/

/-- The feed-handler state the claims touch: the book manager, the
recovery manager, and the output-sequence counter. -/
structure FeedHandlerState where
  book_manager : CmeOrderBookManager := {}
  recovery_manager : RecoveryManager := {}
  output_seq : Nat := 0
  deriving Repr, DecidableEq

/-- `CmeFeedHandler::handleChannelReset`: clears the book manager FIRST,
then iterates `book_manager_.getAllSecurityIds()` — which is evaluated on
the just-cleared manager — resetting each returned id's recovery record. -/
def FeedHandlerState.handleChannelReset (s : FeedHandlerState) : FeedHandlerState :=
  let bm' := s.book_manager.clear
  let ids := bm'.getAllSecurityIds
  let rm' := ids.foldl (fun r sid => r.resetExpectedSeq sid 1) s.recovery_manager
  { s with book_manager := bm', recovery_manager := rm' }

/-- Per-entry body of `CmeFeedHandler::handleIncrementalRefresh`: the FSM
gates; only an accepted entry reaches the book manager. -/
def FeedHandlerState.handleIncrementalEntry (s : FeedHandlerState)
    (e : MDIncrementalRefreshEntry) : FeedHandlerState :=
  let r := s.recovery_manager.onIncrementalMessage e.security_id e.rpt_seq
  if r.2 then
    { s with recovery_manager := r.1
             book_manager := s.book_manager.applyIncremental e }
  else { s with recovery_manager := r.1 }

/-- `CmeFeedHandler::handleIncrementalRefresh` over a message's entries. -/
def FeedHandlerState.handleIncrementalRefresh (s : FeedHandlerState)
    (entries : List MDIncrementalRefreshEntry) : FeedHandlerState :=
  entries.foldl FeedHandlerState.handleIncrementalEntry s

/-- `CmeFeedHandler::handleSnapshotFullRefresh`. -/
def FeedHandlerState.handleSnapshotFullRefresh (s : FeedHandlerState)
    (sid rpt_seq last_incr : Nat) (entries : List MDSnapshotEntry) :
    FeedHandlerState :=
  let r := s.recovery_manager.onSnapshotMessage sid rpt_seq last_incr
  if r.2 then
    { s with recovery_manager := (r.1.completeRecovery sid rpt_seq)
             book_manager := s.book_manager.applySnapshot sid entries rpt_seq }
  else { s with recovery_manager := r.1 }

/-- Loop body of `publishConflatedSnapshots` (hoisted for the proofs):
publish one snapshot for `sid` when its recovery state is Normal. -/
def publishStep (acc : FeedHandlerState × List (Nat × OrderBookSnapshot))
    (sid : Nat) : FeedHandlerState × List (Nat × OrderBookSnapshot) :=
  if acc.1.recovery_manager.getState sid = RecoveryState.Normal then
    let r := acc.1.book_manager.getBook sid
    let seq' := acc.1.output_seq + 1
    let snap := { r.1.getSnapshot with sequence := seq' }
    ({ acc.1 with book_manager := r.2, output_seq := seq' },
     acc.2 ++ [(sid, snap)])
  else acc

/-- `CmeFeedHandler::publishConflatedSnapshots`: drains the dirty set, and
for each drained id whose recovery state is Normal assigns the next output
sequence and emits one snapshot.  Returns the new state and the list of
`(security_id, snapshot)` pairs sent. -/
def FeedHandlerState.publishConflatedSnapshots (s : FeedHandlerState) :
    FeedHandlerState × List (Nat × OrderBookSnapshot) :=
  let d := s.book_manager.getDirtySecurities
  d.1.foldl publishStep ({ s with book_manager := d.2 }, [])

/-! ### `CmeFeedHandler::processIncrementalPacket` / `processSnapshotPacket`

Byte-level model of the two datagram walkers, instrumented for reads the
C++ performs outside the extent it has bounds-checked.  `oobRead` is
produced exactly when the code dereferences a byte beyond the datagram's
length; `completed e` means the walk terminated having counted `e`
errors.  Per-message handler reads all stay inside the size that was
checked for that message, so only the walker's own reads are modelled. -/

inductive ParseOutcome where
  | oobRead
  | completed (errors : Nat)
  deriving Repr, DecidableEq

/-- The `while (offset + sizeof(SBEMessageHeader) <= len)` loop of
`processIncrementalPacket`.  For template 32 the C++ evaluates
`msg->entries_header.num_in_group` — the byte at `offset + 18` — before
any check that the message extends that far; only the 8 header bytes are
known to be in range at that point.

`fuel` exists only to make the recursion structural: every iteration
advances `off` by at least 8 bytes and the loop runs only while
`off + 8 ≤ data.length`, so `data.length` iterations always suffice and
the fuel-exhausted arm is unreachable from `processIncrementalPacket`. -/
def incrementalWalk (data : List Nat) : Nat → Nat → ParseOutcome
  | _, 0 => .completed 0
  | off, fuel + 1 =>
    if off + 8 ≤ data.length then
      let tid := readLE data (off + 2) 2
      if tid = 27 then        -- TEMPLATE_SECURITY_DEFINITION, 45 bytes
        if off + 45 ≤ data.length then incrementalWalk data (off + 45) fuel
        else .completed 0
      else if tid = 32 then   -- TEMPLATE_MD_INCREMENTAL_REFRESH
        if off + 19 ≤ data.length then
          let n := byteAt data (off + 18)
          if off + calcIncrementalSize n ≤ data.length then
            incrementalWalk data (off + calcIncrementalSize n) fuel
          else .completed 0
        else .oobRead
      else if tid = 4 then    -- TEMPLATE_CHANNEL_RESET, 16 bytes
        if off + 16 ≤ data.length then incrementalWalk data (off + 16) fuel
        else .completed 0
      else if tid = 12 then   -- TEMPLATE_HEARTBEAT, 16 bytes
        if off + 16 ≤ data.length then incrementalWalk data (off + 16) fuel
        else .completed 0
      else                    -- unknown: skip header + block_length
        incrementalWalk data (off + 8 + readLE data off 2) fuel
    else .completed 0

/-- `CmeFeedHandler::processIncrementalPacket` (the packet-sequence
bookkeeping reads only the 12 checked header bytes and is elided). -/
def processIncrementalPacket (data : List Nat) : ParseOutcome :=
  if data.length < 12 then .completed 1
  else incrementalWalk data 12 data.length

/-- The message loop of `processSnapshotPacket`.  For template 38 the C++
evaluates `msg->entries_header.num_in_group` — the byte at `offset + 30`
— with only the 8 header bytes known to be in range.  Fuel as in
`incrementalWalk`. -/
def snapshotWalk (data : List Nat) : Nat → Nat → ParseOutcome
  | _, 0 => .completed 0
  | off, fuel + 1 =>
    if off + 8 ≤ data.length then
      let tid := readLE data (off + 2) 2
      if tid = 38 then        -- TEMPLATE_MD_SNAPSHOT_FULL_REFRESH
        if off + 31 ≤ data.length then
          let n := byteAt data (off + 30)
          if off + calcSnapshotSize n ≤ data.length then
            snapshotWalk data (off + calcSnapshotSize n) fuel
          else .completed 0
        else .oobRead
      else snapshotWalk data (off + 8 + readLE data off 2) fuel
    else .completed 0

/-- `CmeFeedHandler::processSnapshotPacket`. -/
def processSnapshotPacket (data : List Nat) : ParseOutcome :=
  if data.length < 12 then .completed 1
  else snapshotWalk data 12 data.length

/-! ### `l2_sbe_messages.h`: the published-snapshot codec

Wire layout (little-endian, packed): MessageHeader (8 bytes: blockLength,
templateId, schemaId, version, each u16), L2SnapshotRoot (46 bytes:
symbol[8], timestamp u64, sequenceNumber u64, lastTradePrice i64,
lastTradeQty u32, totalVolume u64, bidCount u8, askCount u8), then the
bids group (GroupHeader 3 bytes: blockLength u16 = 15, numInGroup u8;
15-byte entries) and the asks group. -/

/-- `l2md::PriceLevelEntry` (15 wire bytes). -/
structure PriceLevelEntry where
  level : Nat      -- uint8_t
  price : Int      -- int64_t
  quantity : Nat   -- uint32_t
  numOrders : Nat  -- uint16_t
  deriving Repr, DecidableEq

/-- Field values representable in the entry's wire types. -/
def EntryWF (e : PriceLevelEntry) : Prop :=
  e.level < 2 ^ 8 ∧ -(2 ^ 63) ≤ e.price ∧ e.price < 2 ^ 63 ∧
    e.quantity < 2 ^ 32 ∧ e.numOrders < 2 ^ 16

instance (e : PriceLevelEntry) : Decidable (EntryWF e) := by
  unfold EntryWF; infer_instance

/-- Wire bytes of one `PriceLevelEntry`. -/
def entryBytes (e : PriceLevelEntry) : List Nat :=
  bytesLE 1 e.level ++ bytesI64 e.price ++ bytesLE 4 e.quantity ++
    bytesLE 2 e.numOrders

theorem entryBytes_length (e : PriceLevelEntry) : (entryBytes e).length = 15 := by
  simp [entryBytes, bytesI64, length_bytesLE]

/-- The stored `symbol[8]` field: `memset` to zero then
`strncpy(..., 8)` — the first `min 8 (length)` symbol bytes, zero-padded
to 8.  `sym` stands for the bytes of the C string before its NUL. -/
def symbolField (sym : List Nat) : List Nat :=
  sym.take 8 ++ List.replicate (8 - sym.length) 0

theorem symbolField_length (sym : List Nat) : (symbolField sym).length = 8 := by
  simp [symbolField]
  omega

/-- `l2md::calcL2SnapshotSize` = 8 + 46 + 3 + 15·bids + 3 + 15·asks. -/
def calcL2SnapshotSize (numBids numAsks : Nat) : Nat :=
  8 + 46 + 3 + numBids * 15 + 3 + numAsks * 15

/-- `L2SnapshotEncoder::encode`.  Fails (returns `none`) when the buffer
is smaller than the exact encoded size; otherwise produces the wire
bytes.  `bidCount`/`askCount` are the root display counts; the group
counts are the lengths of the two entry lists (`numBids`/`numAsks` in the
C++ signature). -/
def encodeL2 (sym : List Nat) (timestamp seqNum : Nat)
    (lastTradePrice : Int) (lastTradeQty totalVolume : Nat)
    (bidCount askCount : Nat) (bids asks : List PriceLevelEntry)
    (bufSize : Nat) : Option (List Nat) :=
  if bufSize < calcL2SnapshotSize bids.length asks.length then none
  else some
    (bytesLE 2 46 ++ bytesLE 2 2 ++ bytesLE 2 1 ++ bytesLE 2 1 ++
     symbolField sym ++ bytesLE 8 timestamp ++ bytesLE 8 seqNum ++
     bytesI64 lastTradePrice ++ bytesLE 4 lastTradeQty ++
     bytesLE 8 totalVolume ++ bytesLE 1 bidCount ++ bytesLE 1 askCount ++
     bytesLE 2 15 ++ bytesLE 1 bids.length ++ (bids.map entryBytes).flatten ++
     bytesLE 2 15 ++ bytesLE 1 asks.length ++ (asks.map entryBytes).flatten)

/-- One decoded `PriceLevelEntry` at byte offset `off`. -/
def readEntry (l : List Nat) (off : Nat) : PriceLevelEntry :=
  { level := readLE l off 1
    price := readI64 l (off + 1)
    quantity := readLE l (off + 9) 4
    numOrders := readLE l (off + 13) 2 }

/-- The view an `L2SnapshotDecoder` exposes through its accessors. -/
structure DecodedL2 where
  symbol : List Nat
  timestamp : Nat
  sequenceNumber : Nat
  lastTradePrice : Int
  lastTradeQty : Nat
  totalVolume : Nat
  bidCount : Nat
  askCount : Nat
  bids : List PriceLevelEntry
  asks : List PriceLevelEntry
  deriving Repr, DecidableEq

/-- `L2SnapshotDecoder` (construction runs `parse()`; the accessors are
then read out).  Returns `none` exactly when `isValid()` would be false
or one of `parse()`'s bounds checks stops parsing early. -/
def decodeL2 (l : List Nat) : Option DecodedL2 :=
  if l.length < 8 then none                    -- MessageDecoder::isValid
  else if readLE l 4 2 ≠ 1 then none           -- schemaId == SCHEMA_ID
  else if readLE l 2 2 ≠ 2 then none           -- templateId == L2_SNAPSHOT
  else if l.length < 8 + 46 then none          -- parse: header + root
  else if 54 + 3 > l.length then none          -- bids group header
  else
    let nb := readLE l 56 1
    if 57 + nb * 15 > l.length then none       -- bids entries
    else
      let ao := 57 + nb * 15                   -- asks group offset
      if ao + 3 > l.length then none           -- asks group header
      else
        let na := readLE l (ao + 2) 1
        if ao + 3 + na * 15 > l.length then none -- asks entries
        else some
          { symbol := (List.range 8).map (fun i => byteAt l (8 + i))
            timestamp := readLE l 16 8
            sequenceNumber := readLE l 24 8
            lastTradePrice := readI64 l 32
            lastTradeQty := readLE l 40 4
            totalVolume := readLE l 44 8
            bidCount := readLE l 52 1
            askCount := readLE l 53 1
            bids := (List.range nb).map (fun i => readEntry l (57 + 15 * i))
            asks := (List.range na).map (fun i => readEntry l (ao + 3 + 15 * i)) }

/-- `l2md::priceToSbe`: `int64_t(fixedPrice4) * 1000` (no overflow: a
`uint32_t` times 1000 fits in `int64_t`). -/
def priceToSbe (fixedPrice4 : Nat) : Int := (fixedPrice4 : Int) * 1000

/-- `l2md::priceFromSbe`: `uint32_t(sbePrice / 1000)` with C++ truncating
division and the wrap of the `int64_t → uint32_t` cast. -/
def priceFromSbe (sbePrice : Int) : Nat :=
  ((sbePrice.tdiv 1000) % (2 ^ 32 : Int)).toNat

/-! ### Round-trip lemmas for the codec -/

theorem readLE_field (pre post : List Nat) {o k v : Nat}
    (ho : pre.length = o) (hv : v < 256 ^ k) :
    readLE (pre ++ (bytesLE k v ++ post)) o k = v := by
  subst ho
  have h := readLE_append_right pre (bytesLE k v ++ post) 0 k
  rw [Nat.add_zero] at h
  rw [h, readLE_bytesLE hv]

theorem readI64_append_right (xs ys : List Nat) (i : Nat) :
    readI64 (xs ++ ys) (xs.length + i) = readI64 ys i := by
  unfold readI64
  rw [readLE_append_right]

theorem readI64_field (pre post : List Nat) {o : Nat} {p : Int}
    (ho : pre.length = o) (hlo : -(2 ^ 63) ≤ p) (hhi : p < 2 ^ 63) :
    readI64 (pre ++ (bytesI64 p ++ post)) o = p := by
  subst ho
  have h := readI64_append_right pre (bytesI64 p ++ post) 0
  rw [Nat.add_zero] at h
  rw [h, readI64_bytesI64 hlo hhi]

theorem byteAt_getElem {xs : List Nat} {i : Nat} (h : i < xs.length) :
    byteAt xs i = xs[i] := by
  simp [byteAt, List.getD, List.getElem?_eq_getElem h]

/-- Decoding the 8 stored symbol bytes returns the stored field. -/
theorem symbol_field_decode (pre rest sym : List Nat) (hp : pre.length = 8) :
    (List.range 8).map
        (fun i => byteAt (pre ++ (symbolField sym ++ rest)) (8 + i))
      = symbolField sym := by
  apply List.ext_getElem (by simp [symbolField_length])
  intro i h1 h2
  rw [symbolField_length] at h2
  simp only [List.getElem_map, List.getElem_range]
  rw [← hp, byteAt_append_right,
      byteAt_append_left (by rw [symbolField_length]; exact h2)]
  exact byteAt_getElem (by rw [symbolField_length]; exact h2)

theorem readEntry_append_right (xs ys : List Nat) (j : Nat) :
    readEntry (xs ++ ys) (xs.length + j) = readEntry ys j := by
  simp only [readEntry]
  rw [show xs.length + j + 1 = xs.length + (j + 1) by omega,
      show xs.length + j + 9 = xs.length + (j + 9) by omega,
      show xs.length + j + 13 = xs.length + (j + 13) by omega,
      readLE_append_right, readI64_append_right, readLE_append_right,
      readLE_append_right]

theorem readEntry_entryBytes {e : PriceLevelEntry} (h : EntryWF e)
    (post : List Nat) : readEntry (entryBytes e ++ post) 0 = e := by
  obtain ⟨lv, p, q, no⟩ := e
  obtain ⟨h1, h2, h3, h4, h5⟩ := h
  simp only [readEntry, Nat.zero_add]
  have hsL : entryBytes ⟨lv, p, q, no⟩ ++ post
      = bytesLE 1 lv ++ (bytesI64 p ++ bytesLE 4 q ++ bytesLE 2 no ++ post) := by
    simp [entryBytes, List.append_assoc]
  have hsP : entryBytes ⟨lv, p, q, no⟩ ++ post
      = bytesLE 1 lv ++ (bytesI64 p ++ (bytesLE 4 q ++ bytesLE 2 no ++ post)) := by
    simp [entryBytes, List.append_assoc]
  have hsQ : entryBytes ⟨lv, p, q, no⟩ ++ post
      = (bytesLE 1 lv ++ bytesI64 p) ++ (bytesLE 4 q ++ (bytesLE 2 no ++ post)) := by
    simp [entryBytes, List.append_assoc]
  have hsN : entryBytes ⟨lv, p, q, no⟩ ++ post
      = (bytesLE 1 lv ++ bytesI64 p ++ bytesLE 4 q) ++ (bytesLE 2 no ++ post) := by
    simp [entryBytes, List.append_assoc]
  refine PriceLevelEntry.mk.injEq .. ▸ ?_
  refine ⟨?_, ?_, ?_, ?_⟩
  · rw [hsL]
    rw [show bytesLE 1 lv ++ (bytesI64 p ++ bytesLE 4 q ++ bytesLE 2 no ++ post)
        = ([] : List Nat) ++ (bytesLE 1 lv ++ (bytesI64 p ++ bytesLE 4 q ++ bytesLE 2 no ++ post)) by simp]
    exact readLE_field [] _ rfl (by simpa using h1)
  · rw [hsP]
    exact readI64_field (bytesLE 1 lv) _ (by simp [length_bytesLE]) h2 h3
  · rw [hsQ]
    exact readLE_field (bytesLE 1 lv ++ bytesI64 p) _
      (by simp [length_bytesLE, bytesI64]) (by simpa using h4)
  · rw [hsN]
    exact readLE_field (bytesLE 1 lv ++ bytesI64 p ++ bytesLE 4 q) _
      (by simp [length_bytesLE, bytesI64]) (by simpa using h5)

theorem flatten_entryBytes_length (es : List PriceLevelEntry) :
    ((es.map entryBytes).flatten).length = es.length * 15 := by
  induction es with
  | nil => rfl
  | cons e t ih => simp [entryBytes_length, ih]; ring

theorem readEntry_flatten (es : List PriceLevelEntry) (post : List Nat)
    (i : Nat) (hi : i < es.length) (hwf : ∀ e ∈ es, EntryWF e) :
    readEntry ((es.map entryBytes).flatten ++ post) (15 * i)
      = es.getD i ⟨0, 0, 0, 0⟩ := by
  induction es generalizing post i with
  | nil => simp at hi
  | cons e t ih =>
    simp only [List.map_cons, List.flatten_cons, List.append_assoc]
    cases i with
    | zero =>
      simpa [List.getD] using
        readEntry_entryBytes (hwf e (by simp)) ((t.map entryBytes).flatten ++ post)
    | succ i =>
      have hshift : (15 : Nat) * (i + 1) = (entryBytes e).length + 15 * i := by
        rw [entryBytes_length]; ring
      rw [hshift, readEntry_append_right]
      have := ih post i (by simpa using hi) (fun x hx => hwf x (by simp [hx]))
      simpa [List.getD] using this

/-- Helper: full decode-after-encode computation for the published
`L2Snapshot` message. -/
theorem decodeL2_encodeL2 (sym : List Nat) (ts sq : Nat) (ltp : Int)
    (ltq vol bc ac : Nat) (bids asks : List PriceLevelEntry) (bufSize : Nat)
    (hts : ts < 2 ^ 64) (hsq : sq < 2 ^ 64) (hltp1 : -(2 ^ 63) ≤ ltp)
    (hltp2 : ltp < 2 ^ 63) (hltq : ltq < 2 ^ 32) (hvol : vol < 2 ^ 64)
    (hbc : bc < 2 ^ 8) (hac : ac < 2 ^ 8)
    (hb : bids.length ≤ 10) (ha : asks.length ≤ 10)
    (hwb : ∀ e ∈ bids, EntryWF e) (hwa : ∀ e ∈ asks, EntryWF e)
    (hbuf : calcL2SnapshotSize bids.length asks.length ≤ bufSize) :
    (encodeL2 sym ts sq ltp ltq vol bc ac bids asks bufSize).bind decodeL2
      = some ⟨symbolField sym, ts, sq, ltp, ltq, vol, bc, ac, bids, asks⟩ := by
  simp only [encodeL2]
  rw [if_neg (by omega)]
  rw [Option.some_bind]
  set BIG : List Nat :=
      bytesLE 2 46 ++
       bytesLE 2 2 ++
       bytesLE 2 1 ++
       bytesLE 2 1 ++
       symbolField sym ++
       bytesLE 8 ts ++
       bytesLE 8 sq ++
       bytesI64 ltp ++
       bytesLE 4 ltq ++
       bytesLE 8 vol ++
       bytesLE 1 bc ++
       bytesLE 1 ac ++
       bytesLE 2 15 ++
       bytesLE 1 bids.length ++
       (bids.map entryBytes).flatten ++
       bytesLE 2 15 ++
       bytesLE 1 asks.length ++
       (asks.map entryBytes).flatten
    with hBIG
  have hlen : BIG.length = 60 + bids.length * 15 + asks.length * 15 := by
    simp only [hBIG, List.length_append, length_bytesLE, symbolField_length,
      flatten_entryBytes_length, bytesI64]
    omega
  have hsch : readLE BIG 4 2 = 1 := by
    rw [show BIG = (bytesLE 2 46 ++ bytesLE 2 2) ++ (bytesLE 2 1 ++ (bytesLE 2 1 ++ symbolField sym ++ bytesLE 8 ts ++ bytesLE 8 sq ++ bytesI64 ltp ++ bytesLE 4 ltq ++ bytesLE 8 vol ++ bytesLE 1 bc ++ bytesLE 1 ac ++ bytesLE 2 15 ++ bytesLE 1 bids.length ++ (bids.map entryBytes).flatten ++ bytesLE 2 15 ++ bytesLE 1 asks.length ++ (asks.map entryBytes).flatten)) from by
      simp only [BIG]; simp [List.append_assoc]]
    exact readLE_field _ _ (by simp only [List.length_append, length_bytesLE, symbolField_length, flatten_entryBytes_length, bytesI64] <;> omega) (by norm_num)
  have htid : readLE BIG 2 2 = 2 := by
    rw [show BIG = (bytesLE 2 46) ++ (bytesLE 2 2 ++ (bytesLE 2 1 ++ bytesLE 2 1 ++ symbolField sym ++ bytesLE 8 ts ++ bytesLE 8 sq ++ bytesI64 ltp ++ bytesLE 4 ltq ++ bytesLE 8 vol ++ bytesLE 1 bc ++ bytesLE 1 ac ++ bytesLE 2 15 ++ bytesLE 1 bids.length ++ (bids.map entryBytes).flatten ++ bytesLE 2 15 ++ bytesLE 1 asks.length ++ (asks.map entryBytes).flatten)) from by
      simp only [BIG]; simp [List.append_assoc]]
    exact readLE_field _ _ (by simp only [List.length_append, length_bytesLE, symbolField_length, flatten_entryBytes_length, bytesI64] <;> omega) (by norm_num)
  have hsym : (List.range 8).map (fun i => byteAt BIG (8 + i)) = symbolField sym := by
    rw [show BIG = (bytesLE 2 46 ++ bytesLE 2 2 ++ bytesLE 2 1 ++ bytesLE 2 1) ++ (symbolField sym ++ (bytesLE 8 ts ++ bytesLE 8 sq ++ bytesI64 ltp ++ bytesLE 4 ltq ++ bytesLE 8 vol ++ bytesLE 1 bc ++ bytesLE 1 ac ++ bytesLE 2 15 ++ bytesLE 1 bids.length ++ (bids.map entryBytes).flatten ++ bytesLE 2 15 ++ bytesLE 1 asks.length ++ (asks.map entryBytes).flatten)) from by
      simp only [BIG]; simp [List.append_assoc]]
    exact symbol_field_decode _ _ sym (by simp only [List.length_append, length_bytesLE, symbolField_length, flatten_entryBytes_length, bytesI64] <;> omega)
  have htsF : readLE BIG 16 8 = ts := by
    rw [show BIG = (bytesLE 2 46 ++ bytesLE 2 2 ++ bytesLE 2 1 ++ bytesLE 2 1 ++ symbolField sym) ++ (bytesLE 8 ts ++ (bytesLE 8 sq ++ bytesI64 ltp ++ bytesLE 4 ltq ++ bytesLE 8 vol ++ bytesLE 1 bc ++ bytesLE 1 ac ++ bytesLE 2 15 ++ bytesLE 1 bids.length ++ (bids.map entryBytes).flatten ++ bytesLE 2 15 ++ bytesLE 1 asks.length ++ (asks.map entryBytes).flatten)) from by
      simp only [BIG]; simp [List.append_assoc]]
    exact readLE_field _ _ (by simp only [List.length_append, length_bytesLE, symbolField_length, flatten_entryBytes_length, bytesI64] <;> omega) (by simpa using hts)
  have hsqF : readLE BIG 24 8 = sq := by
    rw [show BIG = (bytesLE 2 46 ++ bytesLE 2 2 ++ bytesLE 2 1 ++ bytesLE 2 1 ++ symbolField sym ++ bytesLE 8 ts) ++ (bytesLE 8 sq ++ (bytesI64 ltp ++ bytesLE 4 ltq ++ bytesLE 8 vol ++ bytesLE 1 bc ++ bytesLE 1 ac ++ bytesLE 2 15 ++ bytesLE 1 bids.length ++ (bids.map entryBytes).flatten ++ bytesLE 2 15 ++ bytesLE 1 asks.length ++ (asks.map entryBytes).flatten)) from by
      simp only [BIG]; simp [List.append_assoc]]
    exact readLE_field _ _ (by simp only [List.length_append, length_bytesLE, symbolField_length, flatten_entryBytes_length, bytesI64] <;> omega) (by simpa using hsq)
  have hltpF : readI64 BIG 32 = ltp := by
    rw [show BIG = (bytesLE 2 46 ++ bytesLE 2 2 ++ bytesLE 2 1 ++ bytesLE 2 1 ++ symbolField sym ++ bytesLE 8 ts ++ bytesLE 8 sq) ++ (bytesI64 ltp ++ (bytesLE 4 ltq ++ bytesLE 8 vol ++ bytesLE 1 bc ++ bytesLE 1 ac ++ bytesLE 2 15 ++ bytesLE 1 bids.length ++ (bids.map entryBytes).flatten ++ bytesLE 2 15 ++ bytesLE 1 asks.length ++ (asks.map entryBytes).flatten)) from by
      simp only [BIG]; simp [List.append_assoc]]
    exact readI64_field _ _ (by simp only [List.length_append, length_bytesLE, symbolField_length, flatten_entryBytes_length, bytesI64] <;> omega) hltp1 hltp2
  have hltqF : readLE BIG 40 4 = ltq := by
    rw [show BIG = (bytesLE 2 46 ++ bytesLE 2 2 ++ bytesLE 2 1 ++ bytesLE 2 1 ++ symbolField sym ++ bytesLE 8 ts ++ bytesLE 8 sq ++ bytesI64 ltp) ++ (bytesLE 4 ltq ++ (bytesLE 8 vol ++ bytesLE 1 bc ++ bytesLE 1 ac ++ bytesLE 2 15 ++ bytesLE 1 bids.length ++ (bids.map entryBytes).flatten ++ bytesLE 2 15 ++ bytesLE 1 asks.length ++ (asks.map entryBytes).flatten)) from by
      simp only [BIG]; simp [List.append_assoc]]
    exact readLE_field _ _ (by simp only [List.length_append, length_bytesLE, symbolField_length, flatten_entryBytes_length, bytesI64] <;> omega) (by simpa using hltq)
  have hvolF : readLE BIG 44 8 = vol := by
    rw [show BIG = (bytesLE 2 46 ++ bytesLE 2 2 ++ bytesLE 2 1 ++ bytesLE 2 1 ++ symbolField sym ++ bytesLE 8 ts ++ bytesLE 8 sq ++ bytesI64 ltp ++ bytesLE 4 ltq) ++ (bytesLE 8 vol ++ (bytesLE 1 bc ++ bytesLE 1 ac ++ bytesLE 2 15 ++ bytesLE 1 bids.length ++ (bids.map entryBytes).flatten ++ bytesLE 2 15 ++ bytesLE 1 asks.length ++ (asks.map entryBytes).flatten)) from by
      simp only [BIG]; simp [List.append_assoc]]
    exact readLE_field _ _ (by simp only [List.length_append, length_bytesLE, symbolField_length, flatten_entryBytes_length, bytesI64] <;> omega) (by simpa using hvol)
  have hbcF : readLE BIG 52 1 = bc := by
    rw [show BIG = (bytesLE 2 46 ++ bytesLE 2 2 ++ bytesLE 2 1 ++ bytesLE 2 1 ++ symbolField sym ++ bytesLE 8 ts ++ bytesLE 8 sq ++ bytesI64 ltp ++ bytesLE 4 ltq ++ bytesLE 8 vol) ++ (bytesLE 1 bc ++ (bytesLE 1 ac ++ bytesLE 2 15 ++ bytesLE 1 bids.length ++ (bids.map entryBytes).flatten ++ bytesLE 2 15 ++ bytesLE 1 asks.length ++ (asks.map entryBytes).flatten)) from by
      simp only [BIG]; simp [List.append_assoc]]
    exact readLE_field _ _ (by simp only [List.length_append, length_bytesLE, symbolField_length, flatten_entryBytes_length, bytesI64] <;> omega) (by simpa using hbc)
  have hacF : readLE BIG 53 1 = ac := by
    rw [show BIG = (bytesLE 2 46 ++ bytesLE 2 2 ++ bytesLE 2 1 ++ bytesLE 2 1 ++ symbolField sym ++ bytesLE 8 ts ++ bytesLE 8 sq ++ bytesI64 ltp ++ bytesLE 4 ltq ++ bytesLE 8 vol ++ bytesLE 1 bc) ++ (bytesLE 1 ac ++ (bytesLE 2 15 ++ bytesLE 1 bids.length ++ (bids.map entryBytes).flatten ++ bytesLE 2 15 ++ bytesLE 1 asks.length ++ (asks.map entryBytes).flatten)) from by
      simp only [BIG]; simp [List.append_assoc]]
    exact readLE_field _ _ (by simp only [List.length_append, length_bytesLE, symbolField_length, flatten_entryBytes_length, bytesI64] <;> omega) (by simpa using hac)
  have hnb : readLE BIG 56 1 = bids.length := by
    rw [show BIG = (bytesLE 2 46 ++ bytesLE 2 2 ++ bytesLE 2 1 ++ bytesLE 2 1 ++ symbolField sym ++ bytesLE 8 ts ++ bytesLE 8 sq ++ bytesI64 ltp ++ bytesLE 4 ltq ++ bytesLE 8 vol ++ bytesLE 1 bc ++ bytesLE 1 ac ++ bytesLE 2 15) ++ (bytesLE 1 bids.length ++ ((bids.map entryBytes).flatten ++ bytesLE 2 15 ++ bytesLE 1 asks.length ++ (asks.map entryBytes).flatten)) from by
      simp only [BIG]; simp [List.append_assoc]]
    exact readLE_field _ _ (by simp only [List.length_append, length_bytesLE, symbolField_length, flatten_entryBytes_length, bytesI64] <;> omega) (by simp only [pow_one]; omega)
  have hna : readLE BIG (57 + bids.length * 15 + 2) 1 = asks.length := by
    rw [show BIG = (bytesLE 2 46 ++ bytesLE 2 2 ++ bytesLE 2 1 ++ bytesLE 2 1 ++ symbolField sym ++ bytesLE 8 ts ++ bytesLE 8 sq ++ bytesI64 ltp ++ bytesLE 4 ltq ++ bytesLE 8 vol ++ bytesLE 1 bc ++ bytesLE 1 ac ++ bytesLE 2 15 ++ bytesLE 1 bids.length ++ (bids.map entryBytes).flatten ++ bytesLE 2 15) ++ (bytesLE 1 asks.length ++ ((asks.map entryBytes).flatten)) from by
      simp only [BIG]; simp [List.append_assoc]]
    exact readLE_field _ _ (by simp only [List.length_append, length_bytesLE, symbolField_length, flatten_entryBytes_length, bytesI64] <;> omega) (by simp only [pow_one]; omega)
  have hbid : ∀ i, i < bids.length →
      readEntry BIG (57 + 15 * i) = bids.getD i ⟨0, 0, 0, 0⟩ := by
    intro i hi
    rw [show BIG = (bytesLE 2 46 ++ bytesLE 2 2 ++ bytesLE 2 1 ++ bytesLE 2 1 ++ symbolField sym ++ bytesLE 8 ts ++ bytesLE 8 sq ++ bytesI64 ltp ++ bytesLE 4 ltq ++ bytesLE 8 vol ++ bytesLE 1 bc ++ bytesLE 1 ac ++ bytesLE 2 15 ++ bytesLE 1 bids.length) ++ ((bids.map entryBytes).flatten ++ (bytesLE 2 15 ++ bytesLE 1 asks.length ++ (asks.map entryBytes).flatten)) from by
      simp only [BIG]; simp [List.append_assoc]]
    rw [show 57 + 15 * i = ((bytesLE 2 46 ++ bytesLE 2 2 ++ bytesLE 2 1 ++ bytesLE 2 1 ++ symbolField sym ++ bytesLE 8 ts ++ bytesLE 8 sq ++ bytesI64 ltp ++ bytesLE 4 ltq ++ bytesLE 8 vol ++ bytesLE 1 bc ++ bytesLE 1 ac ++ bytesLE 2 15 ++ bytesLE 1 bids.length) : List Nat).length + 15 * i from by
      simp only [List.length_append, length_bytesLE, symbolField_length, flatten_entryBytes_length, bytesI64] <;> omega]
    rw [readEntry_append_right]
    exact readEntry_flatten bids _ i hi hwb
  have hask : ∀ i, i < asks.length →
      readEntry BIG (57 + bids.length * 15 + 3 + 15 * i) = asks.getD i ⟨0, 0, 0, 0⟩ := by
    intro i hi
    rw [show BIG = (bytesLE 2 46 ++ bytesLE 2 2 ++ bytesLE 2 1 ++ bytesLE 2 1 ++ symbolField sym ++ bytesLE 8 ts ++ bytesLE 8 sq ++ bytesI64 ltp ++ bytesLE 4 ltq ++ bytesLE 8 vol ++ bytesLE 1 bc ++ bytesLE 1 ac ++ bytesLE 2 15 ++ bytesLE 1 bids.length ++ (bids.map entryBytes).flatten ++ bytesLE 2 15 ++ bytesLE 1 asks.length) ++ ((asks.map entryBytes).flatten ++ ([] : List Nat)) from by
      simp only [BIG]; simp [List.append_assoc]]
    rw [show 57 + bids.length * 15 + 3 + 15 * i
        = ((bytesLE 2 46 ++ bytesLE 2 2 ++ bytesLE 2 1 ++ bytesLE 2 1 ++ symbolField sym ++ bytesLE 8 ts ++ bytesLE 8 sq ++ bytesI64 ltp ++ bytesLE 4 ltq ++ bytesLE 8 vol ++ bytesLE 1 bc ++ bytesLE 1 ac ++ bytesLE 2 15 ++ bytesLE 1 bids.length ++ (bids.map entryBytes).flatten ++ bytesLE 2 15 ++ bytesLE 1 asks.length) : List Nat).length + 15 * i from by
      simp only [List.length_append, length_bytesLE, symbolField_length, flatten_entryBytes_length, bytesI64] <;> omega]
    rw [readEntry_append_right]
    exact readEntry_flatten asks _ i hi hwa
  have hbl : (List.range bids.length).map (fun i => readEntry BIG (57 + 15 * i)) = bids := by
    apply List.ext_getElem (by simp)
    intro i h1 h2
    simp only [List.getElem_map, List.getElem_range]
    rw [hbid i (by simpa using h1)]
    simp [List.getD, List.getElem?_eq_getElem h2]
  have hal : (List.range asks.length).map
      (fun i => readEntry BIG (57 + bids.length * 15 + 3 + 15 * i)) = asks := by
    apply List.ext_getElem (by simp)
    intro i h1 h2
    simp only [List.getElem_map, List.getElem_range]
    rw [hask i (by simpa using h1)]
    simp [List.getD, List.getElem?_eq_getElem h2]
  simp only [decodeL2, hsch, htid, hnb, hna, hsym, htsF, hsqF, hltpF, hltqF,
    hvolF, hbcF, hacF, hbl, hal]
  rw [if_neg (by omega), if_neg (by norm_num), if_neg (by norm_num),
      if_neg (by omega), if_neg (by omega), if_neg (by omega),
      if_neg (by omega), if_neg (by omega)]

/-! ### Claim theorems -/

/-- C1: the claim states that after processing a `ChannelReset` every
previously known instrument's recovery state is Normal with
`expected_rpt_seq = 1` (`last_good_rpt_seq = 0`).  The code clears the
book map BEFORE iterating `getAllSecurityIds()`, so the reset loop runs
over an empty list: with instrument 1001 known and in GapDetected with
`expected_rpt_seq = 7`, the reset leaves its recovery record completely
untouched (still GapDetected, `expected_rpt_seq = 7`), while the book map
is wiped. -/
theorem channelReset_leaves_recovery_untouched :
    (FeedHandlerState.handleChannelReset
        { book_manager := { books := [(1001, CmeOrderBook.mkEmpty 1001)], dirty := [] }
          recovery_manager :=
            { states := [(1001, { state := .GapDetected, expected_rpt_seq := 7,
                                  last_good_rpt_seq := 4 })] }
          output_seq := 0 }).recovery_manager
      = { states := [(1001, { state := .GapDetected, expected_rpt_seq := 7,
                              last_good_rpt_seq := 4 })] } ∧
    (FeedHandlerState.handleChannelReset
        { book_manager := { books := [(1001, CmeOrderBook.mkEmpty 1001)], dirty := [] }
          recovery_manager :=
            { states := [(1001, { state := .GapDetected, expected_rpt_seq := 7,
                                  last_good_rpt_seq := 4 })] }
          output_seq := 0 }).book_manager.books = [] := by
  exact ⟨rfl, rfl⟩

/-- C4: counterexample input for the bounds-check claim.  A 20-byte
datagram — a 12-byte packet header followed by exactly one 8-byte SBE
message header announcing template 32 — makes `processIncrementalPacket`
dereference `entries_header.num_in_group` at byte offset 30, beyond the
datagram's 20 bytes, while computing the message size. -/
theorem processIncremental_reads_out_of_range :
    processIncrementalPacket (List.replicate 12 0 ++ [0, 0, 32, 0, 0, 0, 0, 0])
      = ParseOutcome.oobRead := by decide

/-- C2, counterexample: for a book whose bids occupy positions 1..5,
`DeleteThru L=2` leaves `bid_count = 0` but does NOT zero every bid slot:
slot index 2 still holds the former position-3 level (48, 1, 1). -/
theorem deleteThru_whole_side_cex :
    ¬ ((({ CmeOrderBook.mkEmpty 1001 with
            bids := [⟨50, 1, 1⟩, ⟨49, 1, 1⟩, ⟨48, 1, 1⟩, ⟨47, 1, 1⟩, ⟨46, 1, 1⟩,
                     .zero, .zero, .zero, .zero, .zero]
            bid_count := 5 }.applyBid 2 MDUpdateAction.DeleteThru 0 0 0).bid_count = 0 ∧
        ∀ i, i < CME_MAX_DEPTH →
          ({ CmeOrderBook.mkEmpty 1001 with
              bids := [⟨50, 1, 1⟩, ⟨49, 1, 1⟩, ⟨48, 1, 1⟩, ⟨47, 1, 1⟩, ⟨46, 1, 1⟩,
                       .zero, .zero, .zero, .zero, .zero]
              bid_count := 5 }.applyBid 2 MDUpdateAction.DeleteThru 0 0 0).bids.getD i .zero
            = .zero)) := by decide

/-- C2, amended: `DeleteThru(L)` zeroes positions 1..L (slot indices
below `L`) and sets the side's count to 0; slots at index `L` and beyond
keep their previous contents. -/
theorem deleteThru_zeroes_thru_level_only (ls : List CmePriceLevel)
    (count L : Nat) (p q : Int) (o : Nat) (h1 : 1 ≤ L) (h2 : L ≤ CME_MAX_DEPTH) :
    (applyLadder L MDUpdateAction.DeleteThru p q o (ls, count)).2 = 0 ∧
    ∀ i, (applyLadder L MDUpdateAction.DeleteThru p q o (ls, count)).1.getD i .zero
      = if i < L then .zero else ls.getD i .zero := by
  have hred : applyLadder L MDUpdateAction.DeleteThru p q o (ls, count)
      = (List.replicate L .zero ++ ls.drop L, 0) := by
    simp only [applyLadder, MDUpdateAction.New, MDUpdateAction.Change,
      MDUpdateAction.Delete, MDUpdateAction.DeleteThru, MDUpdateAction.DeleteFrom,
      MDUpdateAction.Overlay, CME_MAX_DEPTH]
    rw [if_neg (by simp only [CME_MAX_DEPTH] at h2; omega)]
    norm_num
    rw [show L - 1 + 1 = L by omega]
  rw [hred]
  refine ⟨rfl, ?_⟩
  intro i
  by_cases hi : i < L
  · rw [if_pos hi, List.getD_append _ _ _ i (by simp; omega)]
    simp [List.getD_eq_getElem?_getD, List.getElem?_replicate, hi]
  · rw [if_neg hi, List.getD_append_right _ _ _ i (by simp; omega)]
    simp only [List.getD_eq_getElem?_getD, List.getElem?_drop, List.length_replicate]
    rw [show L + (i - L) = i by omega]

/-- C2, witness for the amended theorem at the scenario's input. -/
theorem deleteThru_zeroes_thru_level_only_witness :
    (applyLadder 2 MDUpdateAction.DeleteThru 0 0 0
        ([⟨50, 1, 1⟩, ⟨49, 1, 1⟩, ⟨48, 1, 1⟩, ⟨47, 1, 1⟩, ⟨46, 1, 1⟩,
          .zero, .zero, .zero, .zero, .zero], 5)).2 = 0 ∧
    ∀ i, (applyLadder 2 MDUpdateAction.DeleteThru 0 0 0
        ([⟨50, 1, 1⟩, ⟨49, 1, 1⟩, ⟨48, 1, 1⟩, ⟨47, 1, 1⟩, ⟨46, 1, 1⟩,
          .zero, .zero, .zero, .zero, .zero], 5)).1.getD i .zero
      = if i < 2 then .zero
        else ([⟨50, 1, 1⟩, ⟨49, 1, 1⟩, ⟨48, 1, 1⟩, ⟨47, 1, 1⟩, ⟨46, 1, 1⟩,
               .zero, .zero, .zero, .zero, .zero] : List CmePriceLevel).getD i .zero :=
  deleteThru_zeroes_thru_level_only _ 5 2 0 0 0 (by norm_num) (by decide)

/-- C3, counterexample: a single accepted incremental entry — `Change`
on bid level 1 of a fresh instrument — writes slot 0 while leaving
`bid_count = 0`, so the "slots at or beyond the count are zero" invariant
fails on a reachable state. -/
theorem slots_beyond_count_zero_cex :
    ((alGet (FeedHandlerState.handleIncrementalEntry {}
          ⟨45, 10, 1001, 1, MDEntryType.Bid, MDUpdateAction.Change, 1, 1⟩
        ).book_manager.books 1001).getD (CmeOrderBook.mkEmpty 0)).bid_count = 0 ∧
    ((alGet (FeedHandlerState.handleIncrementalEntry {}
          ⟨45, 10, 1001, 1, MDEntryType.Bid, MDUpdateAction.Change, 1, 1⟩
        ).book_manager.books 1001).getD (CmeOrderBook.mkEmpty 0)).bids.getD 0 .zero
      ≠ .zero := by decide

/-- "No stale data beyond the occupied slots": every slot at index at or
beyond `count` is the zero level. -/
def ladderZeroBeyond (ls : List CmePriceLevel) (count : Nat) : Prop :=
  ∀ i, count ≤ i → ls.getD i .zero = .zero

instance (ls : List CmePriceLevel) (count : Nat) :
    Decidable (ladderZeroBeyond ls count) := by
  have : ladderZeroBeyond ls count ↔
      ∀ i, i < ls.length → count ≤ i → ls.getD i .zero = .zero := by
    constructor
    · intro h i _ hc; exact h i hc
    · intro h i hc
      by_cases hl : i < ls.length
      · exact h i hl hc
      · simp only [List.getD_eq_getElem?_getD]
        rw [List.getElem?_eq_none (by omega)]
        rfl
  exact decidable_of_iff _ this.symm

theorem emptyLadder_zeroBeyond (count : Nat) : ladderZeroBeyond emptyLadder count := by
  intro i _
  simp only [emptyLadder, CME_MAX_DEPTH, List.getD_eq_getElem?_getD,
    List.getElem?_replicate]
  split_ifs <;> rfl

theorem applySnapshotEntry_zeroBeyond (b : CmeOrderBook) (e : MDSnapshotEntry)
    (hb : ladderZeroBeyond b.bids b.bid_count)
    (ha : ladderZeroBeyond b.asks b.ask_count) :
    ladderZeroBeyond (applySnapshotEntry b e).bids (applySnapshotEntry b e).bid_count ∧
    ladderZeroBeyond (applySnapshotEntry b e).asks (applySnapshotEntry b e).ask_count := by
  unfold applySnapshotEntry
  split_ifs with hlv ht0 ht1
  · exact ⟨hb, ha⟩
  · constructor
    · intro i hi
      dsimp only at hi ⊢
      have hcnt : b.bid_count ≤ i ∧ e.md_price_level - 1 + 1 ≤ i := by
        split_ifs at hi <;> omega
      rw [List.getD_eq_getElem?_getD,
          List.getElem?_set_ne (by omega : e.md_price_level - 1 ≠ i),
          ← List.getD_eq_getElem?_getD]
      exact hb i hcnt.1
    · intro i hi
      dsimp only at hi ⊢
      exact ha i hi
  · constructor
    · intro i hi
      dsimp only at hi ⊢
      exact hb i hi
    · intro i hi
      dsimp only at hi ⊢
      have hcnt : b.ask_count ≤ i ∧ e.md_price_level - 1 + 1 ≤ i := by
        split_ifs at hi <;> omega
      rw [List.getD_eq_getElem?_getD,
          List.getElem?_set_ne (by omega : e.md_price_level - 1 ≠ i),
          ← List.getD_eq_getElem?_getD]
      exact ha i hcnt.1
  · exact ⟨hb, ha⟩

theorem foldl_applySnapshotEntry_zeroBeyond (entries : List MDSnapshotEntry) :
    ∀ b : CmeOrderBook,
      ladderZeroBeyond b.bids b.bid_count → ladderZeroBeyond b.asks b.ask_count →
      ladderZeroBeyond (entries.foldl applySnapshotEntry b).bids
          (entries.foldl applySnapshotEntry b).bid_count ∧
        ladderZeroBeyond (entries.foldl applySnapshotEntry b).asks
          (entries.foldl applySnapshotEntry b).ask_count := by
  induction entries with
  | nil => intro b hb ha; exact ⟨hb, ha⟩
  | cons e t ih =>
    intro b hb ha
    have h := applySnapshotEntry_zeroBeyond b e hb ha
    exact ih (applySnapshotEntry b e) h.1 h.2

/-- C3, amended: the zero-beyond-the-count invariant holds after every
snapshot application (for any starting book and any entry list), and after
`clear`; it is not an invariant of arbitrary incremental entries (see the
counterexample: a `Change`/`New`/`Overlay` at a level beyond the occupied
positions, or a `DeleteThru`, leaves nonzero slots at or beyond the
count). -/
theorem applySnapshot_zero_beyond_count (b : CmeOrderBook)
    (entries : List MDSnapshotEntry) :
    (ladderZeroBeyond (b.applySnapshot entries).bids (b.applySnapshot entries).bid_count ∧
     ladderZeroBeyond (b.applySnapshot entries).asks (b.applySnapshot entries).ask_count) ∧
    (ladderZeroBeyond b.clear.bids b.clear.bid_count ∧
     ladderZeroBeyond b.clear.asks b.clear.ask_count) := by
  constructor
  · unfold CmeOrderBook.applySnapshot
    exact foldl_applySnapshotEntry_zeroBeyond entries b.clear
      (emptyLadder_zeroBeyond 0) (emptyLadder_zeroBeyond 0)
  · exact ⟨emptyLadder_zeroBeyond 0, emptyLadder_zeroBeyond 0⟩

/-- C3, witness for the amended theorem at a concrete snapshot. -/
theorem applySnapshot_zero_beyond_count_witness :
    (ladderZeroBeyond ((CmeOrderBook.mkEmpty 1001).applySnapshot
        [⟨45, 10, 0, 3, 1⟩, ⟨46, 7, 1, 2, 2⟩]).bids
        ((CmeOrderBook.mkEmpty 1001).applySnapshot
          [⟨45, 10, 0, 3, 1⟩, ⟨46, 7, 1, 2, 2⟩]).bid_count ∧
      ladderZeroBeyond ((CmeOrderBook.mkEmpty 1001).applySnapshot
        [⟨45, 10, 0, 3, 1⟩, ⟨46, 7, 1, 2, 2⟩]).asks
        ((CmeOrderBook.mkEmpty 1001).applySnapshot
          [⟨45, 10, 0, 3, 1⟩, ⟨46, 7, 1, 2, 2⟩]).ask_count) ∧
    (ladderZeroBeyond (CmeOrderBook.mkEmpty 1001).clear.bids
        (CmeOrderBook.mkEmpty 1001).clear.bid_count ∧
      ladderZeroBeyond (CmeOrderBook.mkEmpty 1001).clear.asks
        (CmeOrderBook.mkEmpty 1001).clear.ask_count) :=
  applySnapshot_zero_beyond_count (CmeOrderBook.mkEmpty 1001)
    [⟨45, 10, 0, 3, 1⟩, ⟨46, 7, 1, 2, 2⟩]

/-- C5, counterexample: instrument 1001 is dirty and in GapDetected.  At
the conflation tick nothing is published for it — but it is NOT re-added
to the dirty set: the drained set stays empty, so its dirty marker is
lost. -/
theorem conflation_skip_loses_dirty_marker_cex :
    (FeedHandlerState.publishConflatedSnapshots
        { book_manager := { books := [(1001, CmeOrderBook.mkEmpty 1001)], dirty := [1001] }
          recovery_manager := { states := [(1001, { state := .GapDetected })] }
          output_seq := 0 }).2 = [] ∧
    ¬ (1001 ∈ (FeedHandlerState.publishConflatedSnapshots
        { book_manager := { books := [(1001, CmeOrderBook.mkEmpty 1001)], dirty := [1001] }
          recovery_manager := { states := [(1001, { state := .GapDetected })] }
          output_seq := 0 }).1.book_manager.dirty) := by decide

/-- `getBook` never touches the dirty set. -/
theorem getBook_dirty (bm : CmeOrderBookManager) (sid : Nat) :
    (bm.getBook sid).2.dirty = bm.dirty := by
  unfold CmeOrderBookManager.getBook
  cases alGet bm.books sid <;> rfl

/-- Invariant of the conflation fold: the dirty set and the recovery
manager are never modified, and every published pair was either already
accumulated or belongs to a drained id whose recovery state was Normal. -/
theorem publishStep_foldl_invariant (d : List Nat) :
    ∀ (st : FeedHandlerState) (ps : List (Nat × OrderBookSnapshot)),
      (d.foldl publishStep (st, ps)).1.book_manager.dirty = st.book_manager.dirty ∧
      (d.foldl publishStep (st, ps)).1.recovery_manager = st.recovery_manager ∧
      ∀ x ∈ (d.foldl publishStep (st, ps)).2,
        x ∈ ps ∨ (x.1 ∈ d ∧ st.recovery_manager.getState x.1 = .Normal) := by
  induction d with
  | nil => exact fun st ps => ⟨rfl, rfl, fun x hx => Or.inl hx⟩
  | cons sid t ih =>
    intro st ps
    simp only [List.foldl_cons]
    by_cases hn : st.recovery_manager.getState sid = RecoveryState.Normal
    · have hstep : publishStep (st, ps) sid
          = ({ st with book_manager := (st.book_manager.getBook sid).2
                       output_seq := st.output_seq + 1 },
             ps ++ [(sid, { (st.book_manager.getBook sid).1.getSnapshot with
                              sequence := st.output_seq + 1 })]) := by
        simp only [publishStep, hn, if_pos]
      rw [hstep]
      obtain ⟨h1, h2, h3⟩ := ih _ _
      refine ⟨by rw [h1]; exact getBook_dirty _ _, by rw [h2], ?_⟩
      intro x hx
      rcases h3 x hx with hx' | ⟨hmem, hnorm⟩
      · rcases List.mem_append.mp hx' with hp | hs
        · exact Or.inl hp
        · refine Or.inr ⟨?_, ?_⟩
          · simp only [List.mem_singleton] at hs
            simp [hs]
          · simp only [List.mem_singleton] at hs
            rw [hs]
            exact hn
      · exact Or.inr ⟨List.mem_cons_of_mem _ hmem, hnorm⟩
    · have hstep : publishStep (st, ps) sid = (st, ps) := by
        simp only [publishStep]
        rw [if_neg hn]
      rw [hstep]
      obtain ⟨h1, h2, h3⟩ := ih st ps
      refine ⟨h1, h2, ?_⟩
      intro x hx
      rcases h3 x hx with hx' | ⟨hmem, hnorm⟩
      · exact Or.inl hx'
      · exact Or.inr ⟨List.mem_cons_of_mem _ hmem, hnorm⟩

/-- C5, amended: at a conflation tick the dirty set is drained
unconditionally.  A dirty instrument whose recovery state is not Normal
is skipped — no snapshot is published for it — and it is NOT re-added to
the dirty set, which ends the tick empty; its accumulated changes are
only published after some later event marks it dirty again. -/
theorem conflation_skips_and_drains_dirty (s : FeedHandlerState) (sid : Nat)
    (hdirty : sid ∈ s.book_manager.dirty)
    (hstate : s.recovery_manager.getState sid ≠ .Normal) :
    (∀ x ∈ (s.publishConflatedSnapshots).2, x.1 ≠ sid) ∧
    (s.publishConflatedSnapshots).1.book_manager.dirty = [] := by
  unfold FeedHandlerState.publishConflatedSnapshots
      CmeOrderBookManager.getDirtySecurities
  obtain ⟨h1, _, h3⟩ := publishStep_foldl_invariant s.book_manager.dirty
    { s with book_manager := { s.book_manager with dirty := [] } } []
  refine ⟨?_, h1⟩
  intro x hx
  rcases h3 x hx with hx' | ⟨_, hnorm⟩
  · simp at hx'
  · intro he
    rw [he] at hnorm
    exact hstate hnorm

/-- C5, witness for the amended theorem. -/
theorem conflation_skips_and_drains_dirty_witness :
    (∀ x ∈ (FeedHandlerState.publishConflatedSnapshots
        { book_manager := { books := [(1002, CmeOrderBook.mkEmpty 1002)], dirty := [1002] }
          recovery_manager := { states := [(1002, { state := .Recovering })] }
          output_seq := 3 }).2, x.1 ≠ 1002) ∧
    (FeedHandlerState.publishConflatedSnapshots
        { book_manager := { books := [(1002, CmeOrderBook.mkEmpty 1002)], dirty := [1002] }
          recovery_manager := { states := [(1002, { state := .Recovering })] }
          output_seq := 3 }).1.book_manager.dirty = [] :=
  conflation_skips_and_drains_dirty _ 1002 (by decide) (by decide)

/-- C6: while an instrument's recovery state is GapDetected or
Recovering, an incoming incremental entry for it changes nothing in the
book manager, leaves every recovery record untouched, increments
`messages_dropped`, and is rejected (the FSM returns `false`). -/
theorem nonNormal_incremental_rejected (s : FeedHandlerState)
    (e : MDIncrementalRefreshEntry) (st : SecurityRecoveryState)
    (hst : alGet s.recovery_manager.states e.security_id = some st)
    (hgap : st.state = .GapDetected ∨ st.state = .Recovering) :
    (s.handleIncrementalEntry e).book_manager = s.book_manager ∧
    (s.handleIncrementalEntry e).recovery_manager.states
      = s.recovery_manager.states ∧
    (s.handleIncrementalEntry e).recovery_manager.stats.messages_dropped
      = s.recovery_manager.stats.messages_dropped + 1 ∧
    (s.recovery_manager.onIncrementalMessage e.security_id e.rpt_seq).2 = false := by
  have hone : s.recovery_manager.onIncrementalMessage e.security_id e.rpt_seq
      = ({ s.recovery_manager with stats := { s.recovery_manager.stats with
            messages_dropped := s.recovery_manager.stats.messages_dropped + 1 } },
         false) := by
    unfold RecoveryManager.onIncrementalMessage
    rw [hst]
    dsimp only
    rcases hgap with h | h <;> rw [h]
  unfold FeedHandlerState.handleIncrementalEntry
  rw [hone]
  exact ⟨rfl, rfl, rfl, rfl⟩

/-- C6, witness: a GapDetected instrument's entry is dropped. -/
theorem nonNormal_incremental_rejected_witness :
    ((FeedHandlerState.handleIncrementalEntry
        { book_manager := { books := [(1003, CmeOrderBook.mkEmpty 1003)], dirty := [] }
          recovery_manager := { states := [(1003,
            { state := .GapDetected, expected_rpt_seq := 6, last_good_rpt_seq := 5 })] }
          output_seq := 0 }
        ⟨45, 10, 1003, 9, 0, 0, 1, 1⟩).book_manager
      = { books := [(1003, CmeOrderBook.mkEmpty 1003)], dirty := [] }) ∧
    ((FeedHandlerState.handleIncrementalEntry
        { book_manager := { books := [(1003, CmeOrderBook.mkEmpty 1003)], dirty := [] }
          recovery_manager := { states := [(1003,
            { state := .GapDetected, expected_rpt_seq := 6, last_good_rpt_seq := 5 })] }
          output_seq := 0 }
        ⟨45, 10, 1003, 9, 0, 0, 1, 1⟩).recovery_manager.states
      = [(1003, { state := .GapDetected, expected_rpt_seq := 6, last_good_rpt_seq := 5 })]) ∧
    ((FeedHandlerState.handleIncrementalEntry
        { book_manager := { books := [(1003, CmeOrderBook.mkEmpty 1003)], dirty := [] }
          recovery_manager := { states := [(1003,
            { state := .GapDetected, expected_rpt_seq := 6, last_good_rpt_seq := 5 })] }
          output_seq := 0 }
        ⟨45, 10, 1003, 9, 0, 0, 1, 1⟩).recovery_manager.stats.messages_dropped
      = ({ states := [(1003,
            { state := .GapDetected, expected_rpt_seq := 6, last_good_rpt_seq := 5 })] }
          : RecoveryManager).stats.messages_dropped + 1) ∧
    (({ states := [(1003,
          { state := .GapDetected, expected_rpt_seq := 6, last_good_rpt_seq := 5 })] }
        : RecoveryManager).onIncrementalMessage 1003 9).2 = false :=
  nonNormal_incremental_rejected _ ⟨45, 10, 1003, 9, 0, 0, 1, 1⟩
    { state := .GapDetected, expected_rpt_seq := 6, last_good_rpt_seq := 5 }
    (by decide) (Or.inl rfl)

/-- Lookup after insert-or-replace at the same key. -/
theorem alGet_alSet_self {α : Type _} (l : List (Nat × α)) (k : Nat) (v : α) :
    alGet (alSet l k v) k = some v := by
  induction l with
  | nil => simp [alSet, alGet]
  | cons p t ih =>
    obtain ⟨k', v'⟩ := p
    by_cases h : k' = k
    · simp [alSet, alGet, h]
    · simp [alSet, alGet, h, ih]

/-- C7: in Normal state, with `last_good_rpt_seq < rpt ≤
expected_rpt_seq`, the first entry carrying `rpt` is accepted and sets
`last_good_rpt_seq = rpt`, `expected_rpt_seq = rpt + 1`; a second entry
with the same `rpt` is also accepted and changes nothing. -/
theorem repeated_rpt_seq_idempotent (m : RecoveryManager) (sid rpt : Nat)
    (st : SecurityRecoveryState)
    (hst : alGet m.states sid = some st) (hnorm : st.state = .Normal)
    (hgt : st.last_good_rpt_seq < rpt) (hle : rpt ≤ st.expected_rpt_seq) :
    (m.onIncrementalMessage sid rpt).2 = true ∧
    alGet (m.onIncrementalMessage sid rpt).1.states sid
      = some { st with expected_rpt_seq := rpt + 1, last_good_rpt_seq := rpt } ∧
    ((m.onIncrementalMessage sid rpt).1.onIncrementalMessage sid rpt).2 = true ∧
    ((m.onIncrementalMessage sid rpt).1.onIncrementalMessage sid rpt).1
      = (m.onIncrementalMessage sid rpt).1 := by
  have h1 : m.onIncrementalMessage sid rpt
      = ({ m with states := (alSet m.states sid
            { st with expected_rpt_seq := rpt + 1, last_good_rpt_seq := rpt }) },
         true) := by
    unfold RecoveryManager.onIncrementalMessage
    rw [hst]
    dsimp only
    rw [hnorm]
    dsimp only
    rw [if_pos ⟨by omega, hle⟩, if_pos hgt]
  have h3 : ({ m with states := (alSet m.states sid
        { st with expected_rpt_seq := rpt + 1, last_good_rpt_seq := rpt }) }
        : RecoveryManager).onIncrementalMessage sid rpt
      = ({ m with states := (alSet m.states sid
            { st with expected_rpt_seq := rpt + 1, last_good_rpt_seq := rpt }) },
         true) := by
    unfold RecoveryManager.onIncrementalMessage
    dsimp only
    rw [alGet_alSet_self]
    dsimp only
    rw [hnorm]
    dsimp only
    rw [if_pos ⟨by omega, by omega⟩, if_neg (by omega)]
  rw [h1]
  dsimp only
  exact ⟨rfl, alGet_alSet_self _ _ _, by rw [h3], by rw [h3]⟩

/-- C7, witness at a concrete Normal record (`last_good = 4`,
`expected = 5`) receiving `rpt = 5` twice. -/
theorem repeated_rpt_seq_idempotent_witness :
    (({ states := [(7, { state := .Normal, expected_rpt_seq := 5, last_good_rpt_seq := 4 })] } : RecoveryManager).onIncrementalMessage 7 5).2 = true ∧
    alGet (({ states := [(7, { state := .Normal, expected_rpt_seq := 5, last_good_rpt_seq := 4 })] } : RecoveryManager).onIncrementalMessage 7 5).1.states 7
      = some { state := .Normal, expected_rpt_seq := 6, last_good_rpt_seq := 5 } ∧
    ((({ states := [(7, { state := .Normal, expected_rpt_seq := 5, last_good_rpt_seq := 4 })] } : RecoveryManager).onIncrementalMessage 7 5).1.onIncrementalMessage 7 5).2 = true ∧
    ((({ states := [(7, { state := .Normal, expected_rpt_seq := 5, last_good_rpt_seq := 4 })] } : RecoveryManager).onIncrementalMessage 7 5).1.onIncrementalMessage 7 5).1
      = (({ states := [(7, { state := .Normal, expected_rpt_seq := 5, last_good_rpt_seq := 4 })] } : RecoveryManager).onIncrementalMessage 7 5).1 :=
  repeated_rpt_seq_idempotent _ 7 5
    { state := .Normal, expected_rpt_seq := 5, last_good_rpt_seq := 4 }
    (by decide) rfl (by decide) (by decide)

/-- C8: encoding an L2Snapshot into a sufficiently large buffer and
decoding it back returns the identical root fields (the symbol as its
stored 8-byte, NUL-padded form) and the identical per-level values; and
price rescaling is exact: `priceFromSbe (priceToSbe x) = x` for every
32-bit fixed-point price `x`. -/
theorem l2snapshot_roundtrip_and_price_rescale :
    (∀ (sym : List Nat) (ts sq : Nat) (ltp : Int) (ltq vol bc ac : Nat)
        (bids asks : List PriceLevelEntry) (bufSize : Nat),
        ts < 2 ^ 64 → sq < 2 ^ 64 → -(2 ^ 63) ≤ ltp → ltp < 2 ^ 63 →
        ltq < 2 ^ 32 → vol < 2 ^ 64 → bc < 2 ^ 8 → ac < 2 ^ 8 →
        bids.length ≤ 10 → asks.length ≤ 10 →
        (∀ e ∈ bids, EntryWF e) → (∀ e ∈ asks, EntryWF e) →
        calcL2SnapshotSize bids.length asks.length ≤ bufSize →
        (encodeL2 sym ts sq ltp ltq vol bc ac bids asks bufSize).bind decodeL2
          = some ⟨symbolField sym, ts, sq, ltp, ltq, vol, bc, ac, bids, asks⟩) ∧
    (∀ x : Nat, x < 2 ^ 32 → priceFromSbe (priceToSbe x) = x) := by
  constructor
  · intro sym ts sq ltp ltq vol bc ac bids asks bufSize h1 h2 h3 h4 h5 h6 h7
      h8 h9 h10 h11 h12 h13
    exact decodeL2_encodeL2 sym ts sq ltp ltq vol bc ac bids asks bufSize
      h1 h2 h3 h4 h5 h6 h7 h8 h9 h10 h11 h12 h13
  · intro x hx
    unfold priceFromSbe priceToSbe
    rw [Int.mul_tdiv_cancel _ (by norm_num)]
    rw [Int.emod_eq_of_lt (by positivity) (by exact_mod_cast hx)]
    simp

/-- C8, witness: a concrete snapshot (one bid with a negative price field
value, no asks) round-trips, and a concrete price rescales exactly. -/
theorem l2snapshot_roundtrip_and_price_rescale_witness :
    (encodeL2 [69, 83] 1 2 (-5) 3 4 1 0 [⟨1, -7, 5, 2⟩] [] 400).bind decodeL2
      = some ⟨symbolField [69, 83], 1, 2, -5, 3, 4, 1, 0, [⟨1, -7, 5, 2⟩], []⟩ ∧
    priceFromSbe (priceToSbe 12345) = 12345 :=
  ⟨l2snapshot_roundtrip_and_price_rescale.1 [69, 83] 1 2 (-5) 3 4 1 0
      [⟨1, -7, 5, 2⟩] [] 400 (by decide) (by decide) (by decide) (by decide)
      (by decide) (by decide) (by decide) (by decide) (by decide) (by decide)
      (by decide) (by decide) (by decide),
   l2snapshot_roundtrip_and_price_rescale.2 12345 (by decide)⟩

/-- A snapshot entry typed neither Bid (0) nor Offer (1) leaves the book
unchanged. -/
theorem applySnapshotEntry_skip (b : CmeOrderBook) (e : MDSnapshotEntry)
    (he : ¬ (e.md_entry_type = MDEntryType.Bid ∨ e.md_entry_type = MDEntryType.Offer)) :
    applySnapshotEntry b e = b := by
  unfold applySnapshotEntry
  split_ifs with h1 h2 h3
  · rfl
  · exact absurd (Or.inl h2) he
  · exact absurd (Or.inr h3) he
  · rfl

theorem foldl_filter_snapshot (entries : List MDSnapshotEntry) :
    ∀ b : CmeOrderBook,
      entries.foldl applySnapshotEntry b
        = (entries.filter (fun e => e.md_entry_type == MDEntryType.Bid
            || e.md_entry_type == MDEntryType.Offer)).foldl applySnapshotEntry b := by
  induction entries with
  | nil => intro b; rfl
  | cons e t ih =>
    intro b
    by_cases hp : (e.md_entry_type == MDEntryType.Bid
        || e.md_entry_type == MDEntryType.Offer) = true
    · rw [@List.filter_cons_of_pos MDSnapshotEntry
          (fun e => e.md_entry_type == MDEntryType.Bid
            || e.md_entry_type == MDEntryType.Offer) e t hp]
      simp only [List.foldl_cons]
      exact ih _
    · rw [@List.filter_cons_of_neg MDSnapshotEntry
          (fun e => e.md_entry_type == MDEntryType.Bid
            || e.md_entry_type == MDEntryType.Offer) e t hp]
      simp only [List.foldl_cons]
      rw [applySnapshotEntry_skip b e (by simpa using hp)]
      exact ih b

/-- C9: snapshot application writes the ladders only from entries typed
Bid (0) or Offer (1) — entries typed ImpliedBid (0x45), ImpliedOffer
(0x46) or Trade are silently dropped (filtering them out changes
nothing); on the incremental path, an ImpliedBid entry updates the book
exactly like the same entry typed Bid, and ImpliedOffer like Offer. -/
theorem snapshot_ignores_implied_incremental_aliases_implied :
    (∀ (b : CmeOrderBook) (entries : List MDSnapshotEntry),
        b.applySnapshot entries
          = b.applySnapshot (entries.filter (fun e =>
              e.md_entry_type == MDEntryType.Bid
                || e.md_entry_type == MDEntryType.Offer))) ∧
    (∀ (b : CmeOrderBook) (e : MDIncrementalRefreshEntry),
        e.md_entry_type = MDEntryType.ImpliedBid →
          b.applyUpdate e = b.applyUpdate { e with md_entry_type := MDEntryType.Bid }) ∧
    (∀ (b : CmeOrderBook) (e : MDIncrementalRefreshEntry),
        e.md_entry_type = MDEntryType.ImpliedOffer →
          b.applyUpdate e = b.applyUpdate { e with md_entry_type := MDEntryType.Offer }) := by
  refine ⟨?_, ?_, ?_⟩
  · intro b entries
    unfold CmeOrderBook.applySnapshot
    exact foldl_filter_snapshot entries b.clear
  · intro b e he
    simp [CmeOrderBook.applyUpdate, he, MDEntryType.Bid, MDEntryType.Offer,
      MDEntryType.Trade, MDEntryType.ImpliedBid, MDEntryType.ImpliedOffer]
  · intro b e he
    simp [CmeOrderBook.applyUpdate, he, MDEntryType.Bid, MDEntryType.Offer,
      MDEntryType.Trade, MDEntryType.ImpliedBid, MDEntryType.ImpliedOffer]

/-- C9, witness at concrete inputs (a Trade-typed snapshot entry is
dropped; implied entries alias Bid/Offer on the incremental path). -/
theorem snapshot_ignores_implied_witness :
    ((CmeOrderBook.mkEmpty 9).applySnapshot [⟨11, 4, 2, 1, 1⟩, ⟨12, 6, 0, 2, 1⟩]
      = (CmeOrderBook.mkEmpty 9).applySnapshot
          ([⟨11, 4, 2, 1, 1⟩, ⟨12, 6, 0, 2, 1⟩].filter (fun e =>
              e.md_entry_type == MDEntryType.Bid
                || e.md_entry_type == MDEntryType.Offer))) ∧
    ((CmeOrderBook.mkEmpty 9).applyUpdate ⟨21, 3, 9, 1, 69, 0, 1, 1⟩
      = (CmeOrderBook.mkEmpty 9).applyUpdate
          { (⟨21, 3, 9, 1, 69, 0, 1, 1⟩ : MDIncrementalRefreshEntry) with
              md_entry_type := MDEntryType.Bid }) ∧
    ((CmeOrderBook.mkEmpty 9).applyUpdate ⟨22, 2, 9, 1, 70, 0, 1, 1⟩
      = (CmeOrderBook.mkEmpty 9).applyUpdate
          { (⟨22, 2, 9, 1, 70, 0, 1, 1⟩ : MDIncrementalRefreshEntry) with
              md_entry_type := MDEntryType.Offer }) :=
  ⟨snapshot_ignores_implied_incremental_aliases_implied.1 (CmeOrderBook.mkEmpty 9)
      [⟨11, 4, 2, 1, 1⟩, ⟨12, 6, 0, 2, 1⟩],
   snapshot_ignores_implied_incremental_aliases_implied.2.1 (CmeOrderBook.mkEmpty 9)
      ⟨21, 3, 9, 1, 69, 0, 1, 1⟩ (by decide),
   snapshot_ignores_implied_incremental_aliases_implied.2.2 (CmeOrderBook.mkEmpty 9)
      ⟨22, 2, 9, 1, 70, 0, 1, 1⟩ (by decide)⟩

/-- C10: every published level price (and the last-trade price) equals
the two's-complement wrap, modulo `2^32`, of the truncating division of
the stored signed 64-bit price by 1000 — negative stored prices are
neither rejected nor clamped anywhere on the output path. -/
theorem published_prices_wrap_tdiv (b : CmeOrderBook) :
    (b.getSnapshot).last_price
        = ((b.last_trade_price.tdiv 1000) % (2 ^ 32 : Int)).toNat ∧
    (∀ i, i < (b.getSnapshot).bids.count →
      ((b.getSnapshot).bids.levels.getD i .zero).price
        = (((b.bids.getD i .zero).price.tdiv 1000) % (2 ^ 32 : Int)).toNat) ∧
    (∀ i, i < (b.getSnapshot).asks.count →
      ((b.getSnapshot).asks.levels.getD i .zero).price
        = (((b.asks.getD i .zero).price.tdiv 1000) % (2 ^ 32 : Int)).toNat) := by
  refine ⟨rfl, ?_, ?_⟩
  · intro i hi
    have hcnt : (b.getSnapshot).bids.count = min b.bid_count CME_MAX_DEPTH := rfl
    rw [hcnt] at hi
    have hi10 : i < CME_MAX_DEPTH := by omega
    have hlev : (b.getSnapshot).bids.levels.getD i .zero
        = toFHLevel (b.bids.getD i .zero) := by
      simp only [CmeOrderBook.getSnapshot]
      rw [List.getD_eq_getElem?_getD, List.getElem?_map,
          List.getElem?_range (by simpa using hi10)]
      simp only [Option.map_some', Option.getD_some]
      rw [if_pos (show i < min b.bid_count CME_MAX_DEPTH by omega)]
    rw [hlev]
    rfl
  · intro i hi
    have hcnt : (b.getSnapshot).asks.count = min b.ask_count CME_MAX_DEPTH := rfl
    rw [hcnt] at hi
    have hi10 : i < CME_MAX_DEPTH := by omega
    have hlev : (b.getSnapshot).asks.levels.getD i .zero
        = toFHLevel (b.asks.getD i .zero) := by
      simp only [CmeOrderBook.getSnapshot]
      rw [List.getD_eq_getElem?_getD, List.getElem?_map,
          List.getElem?_range (by simpa using hi10)]
      simp only [Option.map_some', Option.getD_some]
      rw [if_pos (show i < min b.ask_count CME_MAX_DEPTH by omega)]
    rw [hlev]
    rfl

/-- C10, witness at a book storing a negative bid price and a negative
last-trade price: the published values are the two's-complement wraps
(`-1234567 / 1000` truncates to `-1234`, published as `2^32 - 1234`). -/
theorem published_prices_wrap_tdiv_witness :
    (({ CmeOrderBook.mkEmpty 1001 with
          bids := [⟨-1234567, 5, 1⟩, .zero, .zero, .zero, .zero,
                   .zero, .zero, .zero, .zero, .zero]
          bid_count := 1
          last_trade_price := -999 }.getSnapshot).bids.levels.getD 0 .zero).price
      = ((({ CmeOrderBook.mkEmpty 1001 with
              bids := [⟨-1234567, 5, 1⟩, .zero, .zero, .zero, .zero,
                       .zero, .zero, .zero, .zero, .zero]
              bid_count := 1
              last_trade_price := -999 } : CmeOrderBook).bids.getD 0 .zero).price.tdiv 1000
          % (2 ^ 32 : Int)).toNat ∧
    (({ CmeOrderBook.mkEmpty 1001 with
          bids := [⟨-1234567, 5, 1⟩, .zero, .zero, .zero, .zero,
                   .zero, .zero, .zero, .zero, .zero]
          bid_count := 1
          last_trade_price := -999 }.getSnapshot).bids.levels.getD 0 .zero).price
      = 4294966062 :=
  ⟨(published_prices_wrap_tdiv _).2.1 0 (by decide), by decide⟩

end MarketData
